import Mathlib

/-!
Shallow embedding of the payment state machine, wallet ledger and premium-access
claim protocol of `src/backend/app/star_payments.py` (with the worker-side
compensation path of `src/backend/app/worker.py`), together with proofs of the
spec-level properties.

Modelling conventions:
* Database rows are records in lists; a SQLAlchemy `query(...).filter(...)` +
  `.first()` is `List.find?`, a `.update(...)` is a map that rewrites every row
  matching the filter (its SQL semantics) and whose row count is `List.countP`.
* `uuid4` primary keys are modelled by per-table counters (`nextPaymentId`,
  `nextLedgerId`); timestamps are abstract `Nat` instants passed as a `now`
  argument (each Python call site calls `utcnow()`).
* Every fallible operation returns `Except Err α × DB`: the second component is
  the committed database state even when the first is an error (the FastAPI
  session dependency rolls back uncommitted work on an exception, so an error
  raised before any commit leaves the state unchanged, while an error raised
  after a commit keeps the committed part).
* Network calls (Telegram invoice link / chat send, the LLM) are modelled as
  explicit outcome parameters of the operations that perform them.
-/

namespace Astrobot

/-- `status` column values of `star_payments` (string constants
`PAYMENT_STATUS_*` in the source). -/
inductive PaymentStatus where
  | created
  | invoiced
  | paid
  | consumed
  | failed
  | cancelled
deriving DecidableEq, Repr

/-- `kind` column values of `wallet_ledger` (string constants
`WALLET_LEDGER_KIND_*` in the source). -/
inductive LedgerKind where
  | topup_credit
  | premium_debit
  | premium_refund
deriving DecidableEq, Repr

/-- A raised `HTTPException` (status code + detail). -/
structure Err where
  status_code : Nat
  detail : String
deriving DecidableEq, Repr

/-- `PremiumAccessClaim` dataclass. -/
structure PremiumAccessClaim where
  source : String
  payment_id : Option Nat := none
  wallet_ledger_id : Option Nat := none
deriving DecidableEq, Repr

/-- `StarProduct` dataclass (the display-only `title`/`description` fields are
kept as strings but unused by the verified operations). -/
structure StarProduct where
  feature : String
  amount_stars : Int
  title : String
  description : String
deriving DecidableEq, Repr

/-- The configured star prices (`settings.stars_price_*`, defaults from
`config.py`). -/
structure Settings where
  stars_price_natal_premium : Int := 49
  stars_price_tarot_premium : Int := 29
  stars_price_numerology_premium : Int := 29
deriving DecidableEq, Repr

def STARS_CURRENCY : String := "XTR"

/-- `_product_catalog()`: the static product list, with every configurable
price clamped by `max(1, int(...))`. -/
def _product_catalog (s : Settings) : List StarProduct :=
  [ { feature := "natal_premium"
      amount_stars := max 1 s.stars_price_natal_premium
      title := "Детальный натальный отчёт"
      description := "Персональный астрологический отчёт Gemini" },
    { feature := "tarot_premium"
      amount_stars := max 1 s.stars_price_tarot_premium
      title := "Глубокий расклад Таро"
      description := "Расклад Таро с детальной интерпретацией Gemini" },
    { feature := "numerology_premium"
      amount_stars := max 1 s.stars_price_numerology_premium
      title := "Глубокий нумерологический отчёт"
      description := "Подробный нумерологический анализ Gemini" },
    { feature := "wallet_topup_29"
      amount_stars := 29
      title := "Пополнение баланса на 29 ⭐"
      description := "Пополнение внутреннего баланса Astrobot на 29 кредитов" },
    { feature := "wallet_topup_49"
      amount_stars := 49
      title := "Пополнение баланса на 49 ⭐"
      description := "Пополнение внутреннего баланса Astrobot на 49 кредитов" },
    { feature := "wallet_topup_99"
      amount_stars := 99
      title := "Пополнение баланса на 99 ⭐"
      description := "Пополнение внутреннего баланса Astrobot на 99 кредитов" } ]

/-- `get_product`: dictionary lookup by feature, `400` when unknown. -/
def get_product (s : Settings) (feature : String) : Except Err StarProduct :=
  match (_product_catalog s).find? (fun p => p.feature == feature) with
  | none => Except.error ⟨400, "Неизвестный платный продукт"⟩
  | some p => Except.ok p

/-- `is_wallet_topup_feature`: `feature.startswith("wallet_topup_")`, stated
over the character lists (extensionally `String.startsWith`, but structurally
reducible). -/
def is_wallet_topup_feature (feature : String) : Bool :=
  "wallet_topup_".data.isPrefixOf feature.data

/-- `_payment_error_for_status`. -/
def _payment_error_for_status : PaymentStatus → Err
  | .created => ⟨409, "Оплата ещё не подтверждена Telegram"⟩
  | .invoiced => ⟨409, "Оплата ещё не подтверждена Telegram"⟩
  | .consumed => ⟨409, "Платёж уже использован"⟩
  | .failed => ⟨402, "Оплата не завершена"⟩
  | .cancelled => ⟨402, "Оплата не завершена"⟩
  | .paid => ⟨402, "Требуется оплата Stars"⟩

/-- A row of `users` (the fields read or written by the verified core:
`id`, `tg_user_id`, `wallet_balance`, `updated_at`). -/
structure User where
  id : Nat
  tg_user_id : Int
  wallet_balance : Int
  updated_at : Nat
deriving DecidableEq, Repr

/-- A row of `star_payments` (migration `0006_add_star_payments`). -/
structure StarPayment where
  id : Nat
  user_id : Nat
  tg_user_id : Int
  feature : String
  amount_stars : Int
  currency : String
  status : PaymentStatus
  invoice_payload : String
  invoice_link : Option String := none
  telegram_payment_charge_id : Option String := none
  provider_payment_charge_id : Option String := none
  consumed_by_task_id : Option String := none
  created_at : Nat
  updated_at : Nat
  paid_at : Option Nat := none
  consumed_at : Option Nat := none
deriving DecidableEq, Repr

/-- A row of `wallet_ledger` (migration `0007_add_wallet_balance_and_ledger`). -/
structure WalletLedger where
  id : Nat
  user_id : Nat
  tg_user_id : Int
  delta_stars : Int
  kind : LedgerKind
  feature : Option String := none
  star_payment_id : Option Nat := none
  related_ledger_id : Option Nat := none
  task_id : Option String := none
  created_at : Nat
deriving DecidableEq, Repr

/-- The relational state touched by the core. -/
structure DB where
  users : List User
  payments : List StarPayment
  ledger : List WalletLedger
  nextPaymentId : Nat
  nextLedgerId : Nat
deriving DecidableEq, Repr

/-- SQL `UPDATE ... WHERE pred`: rewrite every matching row. -/
def applyUpdate (l : List α) (pred : α → Bool) (f : α → α) : List α :=
  l.map (fun x => if pred x then f x else x)

/-- `str(x).upper()` on the character list (extensionally `String.toUpper`,
but structurally reducible). -/
def strUpper (s : String) : String := ⟨s.data.map Char.toUpper⟩

/-- Python truthiness of an optional string (`None` and `""` are falsy). -/
def strTruthy : Option String → Bool
  | none => false
  | some s => !s.isEmpty

/-- `get_user_payment`: `.filter(id == payment_id, user_id == user.id).first()`,
`404` when absent. -/
def get_user_payment (db : DB) (user : User) (payment_id : Nat) :
    Except Err StarPayment :=
  match db.payments.find? (fun p => p.id == payment_id && p.user_id == user.id) with
  | none => Except.error ⟨404, "Платёж не найден"⟩
  | some p => Except.ok p

/-- `_credit_wallet_for_paid_topup_if_needed`: one-time wallet credit after a
top-up payment reaches `paid`.  The `IntegrityError` branch (duplicate
`star_payment_id` insert rejected by the unique constraint and rolled back) is
unreachable in this sequential model because the existence check just ran. -/
def _credit_wallet_for_paid_topup_if_needed (db : DB) (payment : StarPayment)
    (now : Nat) : Except Err Unit × DB :=
  if !is_wallet_topup_feature payment.feature then (Except.ok (), db)
  else
    match db.ledger.find? (fun l => l.star_payment_id == some payment.id) with
    | some _ => (Except.ok (), db)
    | none =>
      let updated := db.users.countP (fun u => u.id == payment.user_id)
      if updated ≠ 1 then
        (Except.error ⟨404, "Пользователь платежа не найден"⟩, db)
      else
        let users' := applyUpdate db.users (fun u => u.id == payment.user_id)
          (fun u => { u with wallet_balance := u.wallet_balance + payment.amount_stars,
                             updated_at := now })
        let row : WalletLedger :=
          { id := db.nextLedgerId
            user_id := payment.user_id
            tg_user_id := payment.tg_user_id
            delta_stars := payment.amount_stars
            kind := .topup_credit
            feature := some payment.feature
            star_payment_id := some payment.id
            created_at := now }
        (Except.ok (),
         { db with users := users', ledger := db.ledger ++ [row],
                   nextLedgerId := db.nextLedgerId + 1 })

/-- `claim_wallet_balance_for_feature`: compare-and-swap decrement
(`UPDATE users SET wallet_balance = wallet_balance - cost
WHERE id = ? AND wallet_balance >= cost`); zero rows ⇒ `402`, otherwise a
`premium_debit` ledger row in the same transaction. -/
def claim_wallet_balance_for_feature (s : Settings) (db : DB) (user : User)
    (feature : String) (now : Nat) : Except Err WalletLedger × DB :=
  match get_product s feature with
  | Except.error e => (Except.error e, db)
  | Except.ok product =>
    let cost := product.amount_stars
    let pred := fun (u : User) => u.id == user.id && cost ≤ u.wallet_balance
    let updated := db.users.countP pred
    if updated ≠ 1 then
      (Except.error ⟨402, "Недостаточно баланса. Пополните кошелёк."⟩, db)
    else
      let users' := applyUpdate db.users pred
        (fun u => { u with wallet_balance := u.wallet_balance - cost, updated_at := now })
      let row : WalletLedger :=
        { id := db.nextLedgerId
          user_id := user.id
          tg_user_id := user.tg_user_id
          delta_stars := -cost
          kind := .premium_debit
          feature := some feature
          created_at := now }
      (Except.ok row,
       { db with users := users', ledger := db.ledger ++ [row],
                 nextLedgerId := db.nextLedgerId + 1 })

/-- The `restore_wallet_spend` / `attach_wallet_spend_task` debit filter:
`id == wallet_ledger_id AND user_id == user.id AND kind == 'premium_debit'`. -/
def walletDebitPred (user : User) (wallet_ledger_id : Nat) : WalletLedger → Bool :=
  fun l => l.id == wallet_ledger_id && l.user_id == user.id &&
    l.kind == LedgerKind.premium_debit

/-- The `restore_wallet_spend` existing-refund filter:
`related_ledger_id == debit.id AND kind == 'premium_refund'`. -/
def walletRefundPred (debit_id : Nat) : WalletLedger → Bool :=
  fun l => l.related_ledger_id == some debit_id &&
    l.kind == LedgerKind.premium_refund

/-- `restore_wallet_spend`: refund a premium debit at most once (no-op when the
debit is unknown, already refunded, or has zero magnitude); never raises. -/
def restore_wallet_spend (db : DB) (user : User) (wallet_ledger_id : Nat)
    (now : Nat) : DB :=
  match db.ledger.find? (walletDebitPred user wallet_ledger_id) with
  | none => db
  | some debit =>
    match db.ledger.find? (walletRefundPred debit.id) with
    | some _ => db
    | none =>
      let refund_amount : Int := |debit.delta_stars|
      if refund_amount ≤ 0 then db
      else
        let users' := applyUpdate db.users (fun u => u.id == user.id)
          (fun u => { u with wallet_balance := u.wallet_balance + refund_amount,
                             updated_at := now })
        let refund : WalletLedger :=
          { id := db.nextLedgerId
            user_id := user.id
            tg_user_id := user.tg_user_id
            delta_stars := refund_amount
            kind := .premium_refund
            feature := debit.feature
            related_ledger_id := some debit.id
            created_at := now }
        { db with users := users', ledger := db.ledger ++ [refund],
                  nextLedgerId := db.nextLedgerId + 1 }

/-- `attach_wallet_spend_task`: record the job id on the debit row. -/
def attach_wallet_spend_task (db : DB) (user : User) (wallet_ledger_id : Nat)
    (task_id : Option String) : DB :=
  if !strTruthy task_id then db
  else
    let ledger' := applyUpdate db.ledger (walletDebitPred user wallet_ledger_id)
      (fun l => { l with task_id := task_id })
    { db with ledger := ledger' }

/-- The row values written by `mark_payment_paid_from_telegram` once all its
checks pass: set `paid` (keeping `consumed`), set `paid_at` once, and keep
already-recorded charge ids when the incoming ones are falsy. -/
def markPaidUpdate (payment : StarPayment)
    (telegram_payment_charge_id provider_payment_charge_id : Option String)
    (now : Nat) : StarPayment :=
  -- Idempotent: keep consumed status if report was already started.
  let payment1 :=
    if payment.status ≠ .paid ∧ payment.status ≠ .consumed then
      { payment with status := .paid,
                     paid_at := some (payment.paid_at.getD now) }
    else payment
  { payment1 with
      telegram_payment_charge_id :=
        if strTruthy telegram_payment_charge_id then telegram_payment_charge_id
        else payment.telegram_payment_charge_id
      provider_payment_charge_id :=
        if strTruthy provider_payment_charge_id then provider_payment_charge_id
        else payment.provider_payment_charge_id
      updated_at := now }

/-- `mark_payment_paid_from_telegram`: the sole, idempotent provider
confirmation entry point. -/
def mark_payment_paid_from_telegram (db : DB) (invoice_payload : String)
    (tg_user_id : Option Int) (currency : String) (total_amount : Int)
    (telegram_payment_charge_id provider_payment_charge_id : Option String)
    (now : Nat) : Except Err StarPayment × DB :=
  match db.payments.find? (fun p => p.invoice_payload == invoice_payload) with
  | none => (Except.error ⟨404, "Платёж по invoice_payload не найден"⟩, db)
  | some payment =>
    if tg_user_id.any (fun t => payment.tg_user_id ≠ t) then
      (Except.error ⟨409, "Пользователь платежа не совпадает"⟩, db)
    else if strUpper currency ≠ strUpper payment.currency then
      (Except.error ⟨409, "Валюта платежа не совпадает"⟩, db)
    else if total_amount ≠ payment.amount_stars then
      (Except.error ⟨409, "Сумма платежа не совпадает"⟩, db)
    else if strTruthy telegram_payment_charge_id ∧
        payment.telegram_payment_charge_id ≠ none ∧
        payment.telegram_payment_charge_id ≠ telegram_payment_charge_id then
      (Except.error ⟨409, "Платёж уже подтверждён другим charge_id"⟩, db)
    else
      let payment2 := markPaidUpdate payment
        telegram_payment_charge_id provider_payment_charge_id now
      let db1 := { db with payments :=
        (applyUpdate db.payments (fun p => p.id == payment.id) (fun _ => payment2)) }
      -- an error raised by the credit propagates; on success the refreshed
      -- payment is returned; either way the credit's committed state stands
      let res := _credit_wallet_for_paid_topup_if_needed db1 payment2 now
      (res.1.map (fun _ => payment2), res.2)

/-- `claim_paid_payment_for_feature`: the only consumption point — a
compare-and-swap `UPDATE ... SET status='consumed' WHERE id=? AND user_id=?
AND status='paid'`. -/
def claim_paid_payment_for_feature (db : DB) (user : User) (feature : String)
    (payment_id : Option Nat) (now : Nat) : Except Err StarPayment × DB :=
  match payment_id with
  | none => (Except.error ⟨402, "Для премиум-отчёта нужна оплата Stars"⟩, db)
  | some pid =>
    match get_user_payment db user pid with
    | Except.error e => (Except.error e, db)
    | Except.ok payment =>
      if payment.feature ≠ feature then
        (Except.error ⟨409, "Платёж относится к другому типу отчёта"⟩, db)
      else if payment.status ≠ .paid then
        (Except.error (_payment_error_for_status payment.status), db)
      else
        let pred := fun (p : StarPayment) =>
          p.id == payment.id && p.user_id == user.id && p.status == PaymentStatus.paid
        let updated := db.payments.countP pred
        let payments' := applyUpdate db.payments pred
          (fun p => { p with status := .consumed, consumed_at := some now,
                             updated_at := now })
        let db1 := { db with payments := payments' }
        if updated ≠ 1 then
          match get_user_payment db1 user pid with
          | Except.error e => (Except.error e, db1)
          | Except.ok p2 => (Except.error (_payment_error_for_status p2.status), db1)
        else
          match get_user_payment db1 user pid with
          | Except.error e => (Except.error e, db1)
          | Except.ok p2 => (Except.ok p2, db1)

/-- `restore_consumed_payment_to_paid`: compensating update, `WHERE
status='consumed'` only; a no-op (never an error) in every other state. -/
def restore_consumed_payment_to_paid (db : DB) (user : User) (payment_id : Nat)
    (now : Nat) : DB :=
  let payments' := applyUpdate db.payments (fun p =>
      p.id == payment_id && p.user_id == user.id &&
      p.status == PaymentStatus.consumed)
    (fun p => { p with status := .paid, consumed_at := none,
                       updated_at := now, consumed_by_task_id := none })
  { db with payments := payments' }

/-- `attach_consumed_payment_task`. -/
def attach_consumed_payment_task (db : DB) (user : User) (payment_id : Nat)
    (task_id : Option String) (now : Nat) : DB :=
  if !strTruthy task_id then db
  else
    let payments' := applyUpdate db.payments (fun p =>
        p.id == payment_id && p.user_id == user.id &&
        p.status == PaymentStatus.consumed)
      (fun p => { p with consumed_by_task_id := task_id, updated_at := now })
    { db with payments := payments' }

/-- `claim_premium_access`: dispatch to the payment path or the wallet path,
returning a tagged `PremiumAccessClaim`; `402` when neither mode is supplied. -/
def claim_premium_access (s : Settings) (db : DB) (user : User) (feature : String)
    (payment_id : Option Nat) (use_wallet : Bool) (now : Nat) :
    Except Err PremiumAccessClaim × DB :=
  match payment_id with
  | some pid =>
    match claim_paid_payment_for_feature db user feature (some pid) now with
    | (Except.ok payment, db') =>
      (Except.ok { source := "payment", payment_id := some payment.id }, db')
    | (Except.error e, db') => (Except.error e, db')
  | none =>
    if use_wallet then
      match claim_wallet_balance_for_feature s db user feature now with
      | (Except.ok entry, db') =>
        (Except.ok { source := "wallet", wallet_ledger_id := some entry.id }, db')
      | (Except.error e, db') => (Except.error e, db')
    else
      (Except.error ⟨402, "Для премиум-отчёта нужна оплата Stars или баланс кошелька"⟩, db)

/-- `restore_premium_access_claim`. -/
def restore_premium_access_claim (db : DB) (user : User)
    (claim : Option PremiumAccessClaim) (now : Nat) : DB :=
  match claim with
  | none => db
  | some c =>
    if c.source == "payment" then
      match c.payment_id with
      | some pid => restore_consumed_payment_to_paid db user pid now
      | none => db
    else if c.source == "wallet" then
      match c.wallet_ledger_id with
      | some lid => restore_wallet_spend db user lid now
      | none => db
    else db

/-- `attach_premium_claim_task`. -/
def attach_premium_claim_task (db : DB) (user : User)
    (claim : Option PremiumAccessClaim) (task_id : Option String) (now : Nat) : DB :=
  match claim with
  | none => db
  | some c =>
    if !strTruthy task_id then db
    else if c.source == "payment" then
      match c.payment_id with
      | some pid => attach_consumed_payment_task db user pid task_id now
      | none => db
    else if c.source == "wallet" then
      match c.wallet_ledger_id with
      | some lid => attach_wallet_spend_task db user lid task_id
      | none => db
    else db

/-- The freshly inserted `created` payment row of `create_invoice_for_user`
(`nonce` stands for the `uuid4().hex` fragment of the idempotency key). -/
def createdPaymentRow (db : DB) (user : User) (product : StarProduct)
    (feature nonce : String) (now : Nat) : StarPayment :=
  { id := db.nextPaymentId
    user_id := user.id
    tg_user_id := user.tg_user_id
    feature := product.feature
    amount_stars := product.amount_stars
    currency := STARS_CURRENCY
    status := .created
    invoice_payload := "stars:" ++ feature ++ ":" ++ toString user.tg_user_id
      ++ ":" ++ nonce
    created_at := now
    updated_at := now }

/-- `create_invoice_for_user`: insert a `created` payment, call the provider
(outcome passed as `provider_link`), then commit `invoiced` + link on success
or `failed` on provider error (re-raising it). -/
def create_invoice_for_user (s : Settings) (db : DB) (user : User)
    (feature : String) (nonce : String) (provider_link : Except Err String)
    (now : Nat) : Except Err StarPayment × DB :=
  match get_product s feature with
  | Except.error e => (Except.error e, db)
  | Except.ok product =>
    let payment0 := createdPaymentRow db user product feature nonce now
    let db1 := { db with payments := (db.payments ++ [payment0]),
                         nextPaymentId := db.nextPaymentId + 1 }
    match provider_link with
    | Except.error e =>
      let payments2 := applyUpdate db1.payments (fun p => p.id == payment0.id)
        (fun p => { p with status := .failed, updated_at := now })
      (Except.error e, { db1 with payments := payments2 })
    | Except.ok link =>
      let payments2 := applyUpdate db1.payments (fun p => p.id == payment0.id)
        (fun p => { p with invoice_link := some link, status := .invoiced,
                           updated_at := now })
      let db2 := { db1 with payments := payments2 }
      -- `db.refresh(payment)` re-reads the row just updated by primary key.
      (Except.ok { payment0 with invoice_link := some link, status := .invoiced,
                                 updated_at := now }, db2)

/-- The row update committed by `send_payment_invoice_to_chat` after a
successful send: promote `created` to `invoiced`, touch `updated_at`. -/
def sendInvoiceUpdate (payment : StarPayment) (now : Nat) : StarPayment :=
  { payment with
      status := if payment.status = .created then .invoiced else payment.status
      updated_at := now }

/-- `send_payment_invoice_to_chat`: re-send the invoice for an unpaid payment
(`send_result` is the outcome of the Telegram `sendInvoice` call). -/
def send_payment_invoice_to_chat (s : Settings) (db : DB) (user : User)
    (payment_id : Nat) (send_result : Except Err Unit) (now : Nat) :
    Except Err StarPayment × DB :=
  match get_user_payment db user payment_id with
  | Except.error e => (Except.error e, db)
  | Except.ok payment =>
    if payment.status = .consumed then
      (Except.error ⟨409, "Платёж уже использован"⟩, db)
    else if payment.status = .paid then
      (Except.ok payment, db)
    else if payment.status = .failed ∨ payment.status = .cancelled then
      (Except.error ⟨409, "Платёж недоступен для повторной отправки"⟩, db)
    else
      match get_product s payment.feature with
      | Except.error e => (Except.error e, db)
      | Except.ok _ =>
        match send_result with
        | Except.error e => (Except.error e, db)
        | Except.ok _ =>
          let payment' := sendInvoiceUpdate payment now
          let payments' := applyUpdate db.payments
            (fun p => p.id == payment.id) (fun _ => payment')
          (Except.ok payment', { db with payments := payments' })

/-- Modelled from the spec: `restore_premium_claim_by_task_id` is invoked by
the worker (`worker.py`, `_restore_premium_claim`) but its definition is
missing from `src/backend/app/star_payments.py` — only the caller is in the
sources.  Spec §4.4: "look up which payment or ledger entry carries its own
job id (attached in 4.3) and invoke the matching restorer from 4.1/4.2".  The
restorers take the owning user; the looked-up row's own `user_id`/`tg_user_id`
identify that user. -/
def restore_premium_claim_by_task_id (db : DB) (job_id : String) (now : Nat) :
    Bool × DB :=
  match db.payments.find? (fun p => p.consumed_by_task_id == some job_id) with
  | some p =>
    let owner : User :=
      { id := p.user_id, tg_user_id := p.tg_user_id, wallet_balance := 0,
        updated_at := 0 }
    (true, restore_consumed_payment_to_paid db owner p.id now)
  | none =>
    match db.ledger.find? (fun e =>
        e.task_id == some job_id && e.kind == LedgerKind.premium_debit) with
    | some e =>
      let owner : User :=
        { id := e.user_id, tg_user_id := e.tg_user_id, wallet_balance := 0,
          updated_at := 0 }
      (true, restore_wallet_spend db owner e.id now)
    | none => (false, db)

/-- `_restore_premium_claim` in `worker.py`: call the restorer inside a
`try/except` that swallows any error (the restorer itself is total here). -/
def _restore_premium_claim (db : DB) (job_id : String) (now : Nat) : DB :=
  (restore_premium_claim_by_task_id db job_id now).2

/-- Outcome of the premium LLM call as seen by the worker: the call raised, it
returned no usable report, or it returned a report. -/
inductive LLMOutcome where
  | raised
  | noReport
  | report (payload : String)
deriving DecidableEq, Repr

/-- `task_generate_numerology_premium` (worker failure-compensation skeleton):
on an exception the worker stores a `failed` task payload, restores the
premium claim and re-raises; on an empty report it stores `failed`, restores
and returns a report-less result; on success it returns the report.  The Redis
task-store write and history write are external I/O outside this model. -/
def task_generate_numerology_premium (db : DB) (job_id : String)
    (outcome : LLMOutcome) (now : Nat) : Except Unit (Option String) × DB :=
  match outcome with
  | .raised => (Except.error (), _restore_premium_claim db job_id now)
  | .noReport => (Except.ok none, _restore_premium_claim db job_id now)
  | .report r => (Except.ok (some r), db)

/-- One invocation of a core operation, with all of its inputs (network and
provider outcomes included). -/
inductive Op where
  | createInvoice (user : User) (feature : String) (nonce : String)
      (provider_link : Except Err String) (now : Nat)
  | sendInvoice (user : User) (payment_id : Nat) (send_result : Except Err Unit)
      (now : Nat)
  | markPaid (invoice_payload : String) (tg_user_id : Option Int)
      (currency : String) (total_amount : Int)
      (telegram_charge provider_charge : Option String) (now : Nat)
  | claimPaid (user : User) (feature : String) (payment_id : Option Nat) (now : Nat)
  | restorePayment (user : User) (payment_id : Nat) (now : Nat)
  | claimWallet (user : User) (feature : String) (now : Nat)
  | restoreWallet (user : User) (ledger_id : Nat) (now : Nat)
  | creditTopup (payment_id : Nat) (now : Nat)
deriving Repr

/-- The database state after running one core operation (errors keep the
committed part of the state, as in the definitions above).  `creditTopup`
models the internal `_credit_wallet_for_paid_topup_if_needed` applied to a
payment row of the database, which is how its only caller uses it. -/
def applyOp (s : Settings) (db : DB) : Op → DB
  | .createInvoice user feature nonce provider_link now =>
    (create_invoice_for_user s db user feature nonce provider_link now).2
  | .sendInvoice user payment_id send_result now =>
    (send_payment_invoice_to_chat s db user payment_id send_result now).2
  | .markPaid payload tg_user_id currency total tcid pcid now =>
    (mark_payment_paid_from_telegram db payload tg_user_id currency total tcid pcid now).2
  | .claimPaid user feature payment_id now =>
    (claim_paid_payment_for_feature db user feature payment_id now).2
  | .restorePayment user payment_id now =>
    restore_consumed_payment_to_paid db user payment_id now
  | .claimWallet user feature now =>
    (claim_wallet_balance_for_feature s db user feature now).2
  | .restoreWallet user ledger_id now =>
    restore_wallet_spend db user ledger_id now
  | .creditTopup payment_id now =>
    match db.payments.find? (fun p => p.id == payment_id) with
    | some p => (_credit_wallet_for_paid_topup_if_needed db p now).2
    | none => db

/-- The status of the payment row with the given id (`none` when absent). -/
def statusOf (db : DB) (pid : Nat) : Option PaymentStatus :=
  (db.payments.find? (fun p => p.id == pid)).map (fun p => p.status)

/-- Primary-key discipline that the relational schema enforces: row ids are
unique and below the id allocator. -/
def PK (db : DB) : Prop :=
  (db.payments.map (fun p => p.id)).Nodup ∧
  (∀ p ∈ db.payments, p.id < db.nextPaymentId) ∧
  (db.ledger.map (fun e => e.id)).Nodup ∧
  (∀ e ∈ db.ledger, e.id < db.nextLedgerId)

instance (db : DB) : Decidable (PK db) := by
  unfold PK; infer_instance

/-! ### Generic lemmas about the `UPDATE` model -/

theorem find?_applyUpdate (l : List α) (pred : α → Bool) (f : α → α)
    (q : α → Bool) (hq : ∀ x, q (if pred x then f x else x) = q x) :
    (applyUpdate l pred f).find? q =
      (l.find? q).map (fun x => if pred x then f x else x) := by
  induction l with
  | nil => rfl
  | cons a t ih =>
    show ((if pred a then f a else a) :: applyUpdate t pred f).find? q = _
    rw [List.find?_cons, List.find?_cons, hq a]
    cases h : q a
    · exact ih
    · rfl

theorem applyUpdate_eq_self (l : List α) (pred : α → Bool) (f : α → α)
    (h : ∀ x ∈ l, pred x = false) : applyUpdate l pred f = l := by
  induction l with
  | nil => rfl
  | cons a t ih =>
    show (if pred a then f a else a) :: applyUpdate t pred f = a :: t
    rw [h a (List.mem_cons_self a t), if_neg (by simp),
      ih (fun x hx => h x (List.mem_cons_of_mem a hx))]

theorem mem_applyUpdate_of_mem (l : List α) (pred : α → Bool) (f : α → α)
    {x : α} (hx : x ∈ l) : (if pred x then f x else x) ∈ applyUpdate l pred f :=
  List.mem_map_of_mem _ hx

theorem forall_mem_applyUpdate (l : List α) (pred : α → Bool) (f : α → α)
    (P : α → Prop) (h : ∀ x ∈ l, P (if pred x then f x else x)) :
    ∀ y ∈ applyUpdate l pred f, P y := by
  intro y hy
  obtain ⟨x, hx, rfl⟩ := List.mem_map.1 hy
  exact h x hx

theorem map_applyUpdate (l : List α) (pred : α → Bool) (f : α → α)
    (g : α → β) (h : ∀ x ∈ l, pred x = true → g (f x) = g x) :
    (applyUpdate l pred f).map g = l.map g := by
  induction l with
  | nil => rfl
  | cons a t ih =>
    show g (if pred a then f a else a) :: (applyUpdate t pred f).map g = g a :: t.map g
    have ht : (applyUpdate t pred f).map g = t.map g :=
      ih (fun x hx hp => h x (List.mem_cons_of_mem a hx) hp)
    cases hp : pred a
    · rw [if_neg (by simp [hp]), ht]
    · rw [if_pos (by simp [hp]), h a (List.mem_cons_self a t) hp, ht]

theorem countP_eq_one_of_unique (l : List α) (pred : α → Bool) (idf : α → Nat)
    (hnd : (l.map idf).Nodup) {x : α} (hx : x ∈ l) (hpx : pred x = true)
    (huniq : ∀ y ∈ l, pred y = true → idf y = idf x) : l.countP pred = 1 := by
  induction l with
  | nil => cases hx
  | cons a t ih =>
    rw [List.map_cons, List.nodup_cons] at hnd
    rw [List.countP_cons]
    rcases List.mem_cons.1 hx with rfl | hxt
    · have ht : t.countP pred = 0 := by
        rw [List.countP_eq_zero]
        intro y hy hpy
        exact hnd.1 (huniq y (List.mem_cons_of_mem x hy) hpy ▸
          List.mem_map_of_mem idf hy)
      simp [ht, hpx]
    · have hpa : pred a = false := by
        by_contra hcon
        have : pred a = true := by revert hcon; cases pred a <;> simp
        exact hnd.1 (huniq a (List.mem_cons_self a t) this ▸
          List.mem_map_of_mem idf hxt)
      have := ih hnd.2 hxt (fun y hy hpy => huniq y (List.mem_cons_of_mem a hy) hpy)
      simp [hpa, this]

theorem unique_of_nodup_map (l : List α) (idf : α → Nat)
    (hnd : (l.map idf).Nodup) {x y : α} (hx : x ∈ l) (hy : y ∈ l)
    (h : idf x = idf y) : x = y := by
  induction l with
  | nil => cases hx
  | cons a t ih =>
    rw [List.map_cons, List.nodup_cons] at hnd
    rcases List.mem_cons.1 hx with rfl | hxt
    · rcases List.mem_cons.1 hy with rfl | hyt
      · rfl
      · exact absurd (h ▸ List.mem_map_of_mem idf hyt) hnd.1
    · rcases List.mem_cons.1 hy with rfl | hyt
      · exact absurd (h ▸ List.mem_map_of_mem idf hxt) hnd.1
      · exact ih hnd.2 hxt hyt

/-! ### C8: `restore_consumed_payment_to_paid` is a guarded no-op/compensator -/

theorem restore_consumed_mutates_only_consumed (db : DB) (user : User)
    (payment_id now : Nat) :
    ∀ p ∈ db.payments,
      (p.id ≠ payment_id ∨ p.user_id ≠ user.id ∨ p.status ≠ .consumed) →
      p ∈ (restore_consumed_payment_to_paid db user payment_id now).payments := by
  intro p hp hside
  have hpred : (p.id == payment_id && p.user_id == user.id &&
      p.status == PaymentStatus.consumed) = false := by
    rcases hside with h | h | h <;> simp [h]
  have := mem_applyUpdate_of_mem db.payments
    (fun p => p.id == payment_id && p.user_id == user.id &&
      p.status == PaymentStatus.consumed)
    (fun p => { p with status := .paid, consumed_at := none,
                       updated_at := now, consumed_by_task_id := none }) hp
  rw [if_neg (by simp [hpred])] at this
  exact this

theorem restore_consumed_noop_of_no_match (db : DB) (user : User)
    (payment_id now : Nat)
    (h : ∀ p ∈ db.payments,
      p.id ≠ payment_id ∨ p.user_id ≠ user.id ∨ p.status ≠ .consumed) :
    restore_consumed_payment_to_paid db user payment_id now = db := by
  unfold restore_consumed_payment_to_paid
  rw [applyUpdate_eq_self]
  intro p hp
  rcases h p hp with h' | h' | h' <;> simp [h']

theorem restore_consumed_idem (db : DB) (user : User)
    (payment_id now₁ now₂ : Nat) :
    restore_consumed_payment_to_paid
      (restore_consumed_payment_to_paid db user payment_id now₁) user payment_id now₂
      = restore_consumed_payment_to_paid db user payment_id now₁ := by
  apply restore_consumed_noop_of_no_match
  intro p hp
  show p.id ≠ payment_id ∨ p.user_id ≠ user.id ∨ p.status ≠ PaymentStatus.consumed
  have : ∀ q ∈ (restore_consumed_payment_to_paid db user payment_id now₁).payments,
      q.id ≠ payment_id ∨ q.user_id ≠ user.id ∨ q.status ≠ PaymentStatus.consumed := by
    apply forall_mem_applyUpdate
    intro x _
    by_cases hpx : (x.id == payment_id && x.user_id == user.id &&
        x.status == PaymentStatus.consumed) = true
    · rw [if_pos hpx]
      right; right
      intro hcon
      exact PaymentStatus.noConfusion (show PaymentStatus.paid = PaymentStatus.consumed from hcon)
    · rw [if_neg hpx]
      simp only [Bool.and_eq_true, beq_iff_eq] at hpx
      by_cases h1 : x.id = payment_id
      · by_cases h2 : x.user_id = user.id
        · right; right
          intro h3
          exact hpx ⟨⟨by simp [h1], by simp [h2]⟩, by simp [h3]⟩
        · right; left; exact h2
      · left; exact h1
  exact this p hp

/-- C8: `restore_consumed_payment_to_paid(user, payment_id)` mutates only a
payment currently in status `consumed` (setting it back to `paid` and clearing
`consumed_at`); against a payment in any other status it is a no-op and (being
total, of result type `DB`) does not raise; a second consecutive call after a
successful restore changes nothing. -/
theorem restore_consumed_payment_to_paid_spec (db : DB) (user : User)
    (payment_id now now₂ : Nat) :
    (∀ p ∈ db.payments, p.id = payment_id → p.user_id = user.id →
      p.status = .consumed →
      { p with status := .paid, consumed_at := none, updated_at := now,
               consumed_by_task_id := none }
        ∈ (restore_consumed_payment_to_paid db user payment_id now).payments) ∧
    (∀ p ∈ db.payments,
      (p.id ≠ payment_id ∨ p.user_id ≠ user.id ∨ p.status ≠ .consumed) →
      p ∈ (restore_consumed_payment_to_paid db user payment_id now).payments) ∧
    ((∀ p ∈ db.payments,
        p.id ≠ payment_id ∨ p.user_id ≠ user.id ∨ p.status ≠ .consumed) →
      restore_consumed_payment_to_paid db user payment_id now = db) ∧
    restore_consumed_payment_to_paid
        (restore_consumed_payment_to_paid db user payment_id now) user payment_id now₂
      = restore_consumed_payment_to_paid db user payment_id now := by
  refine ⟨?_, restore_consumed_mutates_only_consumed db user payment_id now,
    restore_consumed_noop_of_no_match db user payment_id now,
    restore_consumed_idem db user payment_id now now₂⟩
  intro p hp h1 h2 h3
  have := mem_applyUpdate_of_mem db.payments
    (fun p => p.id == payment_id && p.user_id == user.id &&
      p.status == PaymentStatus.consumed)
    (fun p => { p with status := .paid, consumed_at := none,
                       updated_at := now, consumed_by_task_id := none }) hp
  rw [if_pos (by simp [h1, h2, h3])] at this
  exact this

/-- Witness for C8 at a concrete database: a consumed payment is restored to
`paid`, a `paid` payment is untouched, and the second call is a no-op. -/
theorem restore_consumed_payment_to_paid_spec_witness :
    let user : User := { id := 1, tg_user_id := 7, wallet_balance := 0, updated_at := 0 }
    let p : StarPayment :=
      { id := 4, user_id := 1, tg_user_id := 7, feature := "tarot_premium",
        amount_stars := 29, currency := "XTR", status := .consumed,
        invoice_payload := "inv-c8", created_at := 0, updated_at := 3,
        paid_at := some 2, consumed_at := some 3 }
    let db : DB := { users := [user], payments := [p], ledger := [],
                     nextPaymentId := 5, nextLedgerId := 1 }
    { p with status := .paid, consumed_at := none, updated_at := 9,
             consumed_by_task_id := none }
      ∈ (restore_consumed_payment_to_paid db user 4 9).payments := by
  intro user p db
  exact (restore_consumed_payment_to_paid_spec db user 4 9 10).1 p
    (List.mem_singleton.2 rfl) rfl rfl rfl

/-! ### C7: `restore_wallet_spend` refunds a debit at most once -/

theorem restore_wallet_noop_of_no_debit (db : DB) (user : User) (lid now : Nat)
    (h : db.ledger.find? (walletDebitPred user lid) = none) :
    restore_wallet_spend db user lid now = db := by
  unfold restore_wallet_spend
  rw [h]

theorem restore_wallet_noop_of_refund (db : DB) (user : User) (lid now : Nat)
    (d : WalletLedger) (hd : db.ledger.find? (walletDebitPred user lid) = some d)
    (hr : ∃ r ∈ db.ledger, walletRefundPred d.id r = true) :
    restore_wallet_spend db user lid now = db := by
  obtain ⟨r', hr'⟩ := Option.isSome_iff_exists.1 (List.find?_isSome.2
    (by obtain ⟨r, h1, h2⟩ := hr; exact ⟨r, h1, h2⟩))
  simp only [restore_wallet_spend, hd, hr']

theorem restore_wallet_noop_of_zero (db : DB) (user : User) (lid now : Nat)
    (d : WalletLedger) (hd : db.ledger.find? (walletDebitPred user lid) = some d)
    (hr : db.ledger.find? (walletRefundPred d.id) = none)
    (hz : |d.delta_stars| ≤ 0) :
    restore_wallet_spend db user lid now = db := by
  simp only [restore_wallet_spend, hd, hr, if_pos hz]

/-- The refund row written by `restore_wallet_spend` for the debit `d`. -/
def walletRefundRow (db : DB) (user : User) (d : WalletLedger) (now : Nat) :
    WalletLedger :=
  { id := db.nextLedgerId
    user_id := user.id
    tg_user_id := user.tg_user_id
    delta_stars := |d.delta_stars|
    kind := .premium_refund
    feature := d.feature
    related_ledger_id := some d.id
    created_at := now }

theorem restore_wallet_creates_refund (db : DB) (user : User) (lid now : Nat)
    (d : WalletLedger) (hd : db.ledger.find? (walletDebitPred user lid) = some d)
    (hr : db.ledger.find? (walletRefundPred d.id) = none)
    (hz : ¬ (|d.delta_stars| ≤ 0)) :
    restore_wallet_spend db user lid now =
      { db with
          users := applyUpdate db.users (fun u => u.id == user.id)
            (fun u => { u with wallet_balance := u.wallet_balance + |d.delta_stars|,
                               updated_at := now })
          ledger := db.ledger ++ [walletRefundRow db user d now]
          nextLedgerId := db.nextLedgerId + 1 } := by
  simp only [restore_wallet_spend, hd, hr, if_neg hz]
  rfl

theorem restore_wallet_idem (db : DB) (user : User) (lid now₁ now₂ : Nat) :
    restore_wallet_spend (restore_wallet_spend db user lid now₁) user lid now₂
      = restore_wallet_spend db user lid now₁ := by
  rcases h1 : db.ledger.find? (walletDebitPred user lid) with _ | d
  · rw [restore_wallet_noop_of_no_debit db user lid now₁ h1,
        restore_wallet_noop_of_no_debit db user lid now₂ h1]
  · rcases h2 : db.ledger.find? (walletRefundPred d.id) with _ | r
    · by_cases h3 : (|d.delta_stars| : Int) ≤ 0
      · rw [restore_wallet_noop_of_zero db user lid now₁ d h1 h2 h3,
            restore_wallet_noop_of_zero db user lid now₂ d h1 h2 h3]
      · rw [restore_wallet_creates_refund db user lid now₁ d h1 h2 h3]
        apply restore_wallet_noop_of_refund _ _ _ _ d
        · show (db.ledger ++ [walletRefundRow db user d now₁]).find?
            (walletDebitPred user lid) = some d
          rw [List.find?_append, h1]
          rfl
        · exact ⟨walletRefundRow db user d now₁,
            List.mem_append_right _ (List.mem_singleton.2 rfl),
            by simp [walletRefundPred, walletRefundRow]⟩
    · rw [restore_wallet_noop_of_refund db user lid now₁ d h1
          ⟨r, List.mem_of_find?_eq_some h2, List.find?_some h2⟩,
        restore_wallet_noop_of_refund db user lid now₂ d h1
          ⟨r, List.mem_of_find?_eq_some h2, List.find?_some h2⟩]

/-- C7: repeated invocations of `restore_wallet_spend` on a debit credit the
balance at most once: the call is idempotent, any call made once a
`premium_refund` referencing the looked-up debit exists is a no-op (neither
balance nor ledger changes), and one call leaves at most one refund
referencing that debit (at most `max 1` of what was already there). -/
theorem restore_wallet_spend_spec (db : DB) (user : User) (lid now now₂ : Nat) :
    (restore_wallet_spend (restore_wallet_spend db user lid now) user lid now₂
      = restore_wallet_spend db user lid now) ∧
    (∀ d, db.ledger.find? (walletDebitPred user lid) = some d →
      (∃ r ∈ db.ledger, walletRefundPred d.id r = true) →
      restore_wallet_spend db user lid now = db) ∧
    (∀ d, db.ledger.find? (walletDebitPred user lid) = some d →
      (restore_wallet_spend db user lid now).ledger.countP (walletRefundPred d.id)
        ≤ max 1 (db.ledger.countP (walletRefundPred d.id))) := by
  refine ⟨restore_wallet_idem db user lid now now₂,
    fun d hd hr => restore_wallet_noop_of_refund db user lid now d hd hr, ?_⟩
  intro d hd
  rcases h2 : db.ledger.find? (walletRefundPred d.id) with _ | r
  · have hzero : db.ledger.countP (walletRefundPred d.id) = 0 := by
      rw [List.countP_eq_zero]
      intro a ha
      exact fun hcon => (List.find?_eq_none.1 h2 a ha) hcon
    by_cases h3 : (|d.delta_stars| : Int) ≤ 0
    · rw [restore_wallet_noop_of_zero db user lid now d hd h2 h3, hzero]
      exact Nat.zero_le _
    · rw [restore_wallet_creates_refund db user lid now d hd h2 h3]
      show (db.ledger ++ [walletRefundRow db user d now]).countP _ ≤ _
      rw [List.countP_append, hzero]
      simp [List.countP, List.countP.go, walletRefundPred, walletRefundRow]
  · rw [restore_wallet_noop_of_refund db user lid now d hd
      ⟨r, List.mem_of_find?_eq_some h2, List.find?_some h2⟩]
    exact le_max_of_le_right le_rfl

/-- Witness for C7 at a concrete database: with a 29-star debit already
refunded, a further `restore_wallet_spend` call changes nothing. -/
theorem restore_wallet_spend_spec_witness :
    let user : User := { id := 1, tg_user_id := 7, wallet_balance := 29, updated_at := 0 }
    let debit : WalletLedger :=
      { id := 1, user_id := 1, tg_user_id := 7, delta_stars := -29,
        kind := .premium_debit, feature := some "tarot_premium", created_at := 1 }
    let refund : WalletLedger :=
      { id := 2, user_id := 1, tg_user_id := 7, delta_stars := 29,
        kind := .premium_refund, feature := some "tarot_premium",
        related_ledger_id := some 1, created_at := 2 }
    let db : DB := { users := [user], payments := [], ledger := [debit, refund],
                     nextPaymentId := 1, nextLedgerId := 3 }
    restore_wallet_spend db user 1 5 = db := by
  intro user debit refund db
  exact (restore_wallet_spend_spec db user 1 5 6).2.1 debit (by decide)
    ⟨refund, by decide, by decide⟩

/-! ### C3: `claim_paid_payment_for_feature` consumes iff owned+matching+paid -/

theorem claimPaid_none (db : DB) (user : User) (feature : String) (now : Nat) :
    claim_paid_payment_for_feature db user feature none now
      = (Except.error ⟨402, "Для премиум-отчёта нужна оплата Stars"⟩, db) := rfl

theorem claimPaid_not_found (db : DB) (user : User) (feature : String)
    (pid now : Nat) (e : Err) (h : get_user_payment db user pid = Except.error e) :
    claim_paid_payment_for_feature db user feature (some pid) now
      = (Except.error e, db) := by
  simp only [claim_paid_payment_for_feature, h]

theorem claimPaid_wrong_feature (db : DB) (user : User) (feature : String)
    (pid now : Nat) (p : StarPayment)
    (hp : get_user_payment db user pid = Except.ok p) (hf : p.feature ≠ feature) :
    claim_paid_payment_for_feature db user feature (some pid) now
      = (Except.error ⟨409, "Платёж относится к другому типу отчёта"⟩, db) := by
  simp only [claim_paid_payment_for_feature, hp]
  rw [if_pos hf]

theorem claimPaid_not_paid (db : DB) (user : User) (feature : String)
    (pid now : Nat) (p : StarPayment)
    (hp : get_user_payment db user pid = Except.ok p) (hf : p.feature = feature)
    (hs : p.status ≠ .paid) :
    claim_paid_payment_for_feature db user feature (some pid) now
      = (Except.error (_payment_error_for_status p.status), db) := by
  simp only [claim_paid_payment_for_feature, hp]
  rw [if_neg (by simp [hf]), if_pos hs]

theorem get_user_payment_mk (users : List User) (payments : List StarPayment)
    (ledger : List WalletLedger) (np nl : Nat) (user : User) (pid : Nat) :
    get_user_payment ⟨users, payments, ledger, np, nl⟩ user pid
      = match payments.find? (fun p => p.id == pid && p.user_id == user.id) with
        | none => Except.error ⟨404, "Платёж не найден"⟩
        | some p => Except.ok p := rfl

theorem claimPaid_success (db : DB) (user : User) (feature : String)
    (pid now : Nat) (p : StarPayment) (hnd : (db.payments.map (fun q => q.id)).Nodup)
    (hp : get_user_payment db user pid = Except.ok p) (hf : p.feature = feature)
    (hs : p.status = .paid) :
    claim_paid_payment_for_feature db user feature (some pid) now
      = (Except.ok { p with status := .consumed, consumed_at := some now,
                            updated_at := now },
         { db with payments := (applyUpdate db.payments
             (fun q => q.id == p.id && q.user_id == user.id &&
               q.status == PaymentStatus.paid)
             (fun q => { q with status := .consumed, consumed_at := some now,
                                updated_at := now })) }) := by
  have hfind : db.payments.find? (fun q => q.id == pid && q.user_id == user.id)
      = some p := by
    unfold get_user_payment at hp
    rcases h : db.payments.find? (fun q => q.id == pid && q.user_id == user.id)
      with _ | q
    · rw [h] at hp; cases hp
    · rw [h] at hp; cases hp; exact h
  have hmem : p ∈ db.payments := List.mem_of_find?_eq_some hfind
  have hids : p.id = pid ∧ p.user_id = user.id := by
    have := List.find?_some hfind
    simpa using this
  have hcount : db.payments.countP (fun q => q.id == p.id && q.user_id == user.id
      && q.status == PaymentStatus.paid) = 1 := by
    apply countP_eq_one_of_unique db.payments _ (fun q => q.id) hnd hmem
    · simp [hs, hids.2]
    · intro y _ hy
      simp only [Bool.and_eq_true, beq_iff_eq] at hy
      simp [hy.1.1]
  have hqpres : ∀ x : StarPayment,
      ((if (x.id == p.id && x.user_id == user.id &&
          x.status == PaymentStatus.paid) = true then
        ({ x with status := .consumed, consumed_at := some now,
                  updated_at := now } : StarPayment) else x).id == pid &&
       (if (x.id == p.id && x.user_id == user.id &&
          x.status == PaymentStatus.paid) = true then
        ({ x with status := .consumed, consumed_at := some now,
                  updated_at := now } : StarPayment) else x).user_id == user.id)
      = (x.id == pid && x.user_id == user.id) := by
    intro x
    by_cases hx : (x.id == p.id && x.user_id == user.id &&
        x.status == PaymentStatus.paid) = true
    · rw [if_pos hx]
    · rw [if_neg hx]
  simp only [claim_paid_payment_for_feature, hp]
  rw [if_neg (by simp [hf]), if_neg (by simp [hs]), hcount]
  simp only [ne_eq, not_true_eq_false, if_false]
  rw [get_user_payment_mk,
    find?_applyUpdate db.payments _ _
      (fun q : StarPayment => q.id == pid && q.user_id == user.id) hqpres,
    hfind]
  simp only [Option.map_some']
  rw [if_pos (by simp [hids.1, hids.2, hs])]

theorem statusOf_mk (users : List User) (payments : List StarPayment)
    (ledger : List WalletLedger) (np nl : Nat) (pid : Nat) :
    statusOf ⟨users, payments, ledger, np, nl⟩ pid
      = (payments.find? (fun p => p.id == pid)).map (fun p => p.status) := rfl

/-- C3: `claim_paid_payment_for_feature(user, feature, payment_id)` consumes
the payment (status `consumed`, `consumed_at` set) iff it exists for this
user, has the requested feature and is currently `paid`; otherwise it raises
the typed error of the current state — `402` for a missing `payment_id`,
`404` for an unknown payment, `409` for a wrong feature, and
`_payment_error_for_status` (`409` for `created`/`invoiced`/`consumed`, `402`
for `failed`/`cancelled`) otherwise — leaving the database unchanged. -/
theorem claim_paid_payment_for_feature_spec (db : DB) (user : User)
    (feature : String) (pid now : Nat) :
    (claim_paid_payment_for_feature db user feature none now
      = (Except.error ⟨402, "Для премиум-отчёта нужна оплата Stars"⟩, db)) ∧
    (∀ e, get_user_payment db user pid = Except.error e →
      e.status_code = 404 ∧
      claim_paid_payment_for_feature db user feature (some pid) now
        = (Except.error e, db)) ∧
    (∀ p, get_user_payment db user pid = Except.ok p → p.feature ≠ feature →
      claim_paid_payment_for_feature db user feature (some pid) now
        = (Except.error ⟨409, "Платёж относится к другому типу отчёта"⟩, db)) ∧
    (∀ p, get_user_payment db user pid = Except.ok p → p.feature = feature →
      p.status ≠ .paid →
      claim_paid_payment_for_feature db user feature (some pid) now
        = (Except.error (_payment_error_for_status p.status), db) ∧
      (_payment_error_for_status p.status).status_code
        = (if p.status = .failed ∨ p.status = .cancelled then 402 else 409)) ∧
    (∀ p, (db.payments.map (fun q => q.id)).Nodup →
      get_user_payment db user pid = Except.ok p → p.feature = feature →
      p.status = .paid →
      ∃ p' db', claim_paid_payment_for_feature db user feature (some pid) now
          = (Except.ok p', db') ∧
        p'.id = pid ∧ p'.status = .consumed ∧ p'.consumed_at = some now ∧
        statusOf db' pid = some .consumed ∧
        (∀ q, q ≠ pid → statusOf db' q = statusOf db q) ∧
        db'.users = db.users ∧ db'.ledger = db.ledger) := by
  refine ⟨claimPaid_none db user feature now, ?_,
    fun p hp hf => claimPaid_wrong_feature db user feature pid now p hp hf, ?_, ?_⟩
  · intro e he
    refine ⟨?_, claimPaid_not_found db user feature pid now e he⟩
    unfold get_user_payment at he
    rcases h : db.payments.find? (fun q => q.id == pid && q.user_id == user.id)
      with _ | q
    · rw [h] at he; cases he; rfl
    · rw [h] at he; cases he
  · intro p hp hf hs
    refine ⟨claimPaid_not_paid db user feature pid now p hp hf hs, ?_⟩
    cases h : p.status <;> simp_all [_payment_error_for_status]
  · intro p hnd hp hf hs
    have hfind : db.payments.find? (fun q => q.id == pid && q.user_id == user.id)
        = some p := by
      unfold get_user_payment at hp
      rcases h : db.payments.find? (fun q => q.id == pid && q.user_id == user.id)
        with _ | q
      · rw [h] at hp; cases hp
      · rw [h] at hp; cases hp; exact h
    have hmem : p ∈ db.payments := List.mem_of_find?_eq_some hfind
    have hids : p.id = pid ∧ p.user_id = user.id := by
      have := List.find?_some hfind
      simpa using this
    have hqid : ∀ (q₀ : Nat) (x : StarPayment),
        ((if (x.id == p.id && x.user_id == user.id &&
            x.status == PaymentStatus.paid) = true then
          ({ x with status := .consumed, consumed_at := some now,
                    updated_at := now } : StarPayment) else x).id == q₀)
        = (x.id == q₀) := by
      intro q₀ x
      by_cases hx : (x.id == p.id && x.user_id == user.id &&
          x.status == PaymentStatus.paid) = true
      · rw [if_pos hx]
      · rw [if_neg hx]
    refine ⟨{ p with status := .consumed, consumed_at := some now,
                     updated_at := now },
      { db with payments := (applyUpdate db.payments
          (fun q => q.id == p.id && q.user_id == user.id &&
            q.status == PaymentStatus.paid)
          (fun q => { q with status := .consumed, consumed_at := some now,
                             updated_at := now })) },
      claimPaid_success db user feature pid now p hnd hp hf hs,
      hids.1, rfl, rfl, ?_, ?_, rfl, rfl⟩
    · rw [statusOf_mk,
        find?_applyUpdate db.payments _ _
          (fun q : StarPayment => q.id == pid) (hqid pid)]
      have hfindid : db.payments.find? (fun q => q.id == pid) = some p := by
        rcases h : db.payments.find? (fun q => q.id == pid) with _ | q
        · exact absurd (List.find?_eq_none.1 h p hmem) (by simp [hids.1])
        · have hq : q = p := unique_of_nodup_map db.payments (fun x => x.id) hnd
            (List.mem_of_find?_eq_some h) hmem (by
              show q.id = p.id
              have := List.find?_some h
              simp only [beq_iff_eq] at this
              rw [this, hids.1])
          rw [hq] at h
          exact h
      rw [hfindid]
      simp only [Option.map_some']
      rw [if_pos (by simp [hids.1, hids.2, hs])]
    · intro q hq
      rw [statusOf_mk,
        find?_applyUpdate db.payments _ _
          (fun x : StarPayment => x.id == q) (hqid q)]
      rcases h : db.payments.find? (fun x => x.id == q) with _ | x
      · rw [h]
        simp [statusOf, h]
      · have hxq : x.id = q := by simpa using List.find?_some h
        have hxnot : ¬ ((x.id == p.id && x.user_id == user.id &&
            x.status == PaymentStatus.paid) = true) := by
          have hne : x.id ≠ p.id := by rw [hxq, hids.1]; exact hq
          simp [hne]
        rw [h]
        simp only [Option.map_some']
        rw [if_neg hxnot]
        simp [statusOf, h]

/-- Witness for C3 at a concrete database: consuming a `paid` payment
succeeds with status `consumed`. -/
theorem claim_paid_payment_for_feature_spec_witness :
    let user : User := { id := 1, tg_user_id := 7, wallet_balance := 0, updated_at := 0 }
    let p : StarPayment :=
      { id := 3, user_id := 1, tg_user_id := 7, feature := "numerology_premium",
        amount_stars := 29, currency := "XTR", status := .paid,
        invoice_payload := "inv-c3", created_at := 0, updated_at := 2,
        paid_at := some 2 }
    let db : DB := { users := [user], payments := [p], ledger := [],
                     nextPaymentId := 4, nextLedgerId := 1 }
    ∃ p' db',
      claim_paid_payment_for_feature db user "numerology_premium" (some 3) 9
        = (Except.ok p', db') ∧ p'.status = .consumed ∧
      statusOf db' 3 = some .consumed := by
  intro user p db
  obtain ⟨p', db', heq, _, hst, _, hstat, _⟩ :=
    (claim_paid_payment_for_feature_spec db user "numerology_premium" 3 9).2.2.2.2
      p (by decide) rfl rfl rfl
  exact ⟨p', db', heq, hst, hstat⟩

/-! ### C5: `claim_wallet_balance_for_feature` CAS decrement -/

/-- The `premium_debit` row written by a successful wallet claim. -/
def walletDebitRow (db : DB) (user : User) (feature : String) (cost : Int)
    (now : Nat) : WalletLedger :=
  { id := db.nextLedgerId
    user_id := user.id
    tg_user_id := user.tg_user_id
    delta_stars := -cost
    kind := .premium_debit
    feature := some feature
    created_at := now }

theorem claimWallet_unknown_product (s : Settings) (db : DB) (user : User)
    (feature : String) (now : Nat) (e : Err)
    (he : get_product s feature = Except.error e) :
    claim_wallet_balance_for_feature s db user feature now
      = (Except.error e, db) := by
  simp only [claim_wallet_balance_for_feature, he]

theorem claimWallet_insufficient (s : Settings) (db : DB) (user : User)
    (feature : String) (now : Nat) (product : StarProduct) (u : User)
    (hprod : get_product s feature = Except.ok product)
    (hnd : (db.users.map (fun x => x.id)).Nodup)
    (hu : db.users.find? (fun x => x.id == user.id) = some u)
    (hlt : u.wallet_balance < product.amount_stars) :
    claim_wallet_balance_for_feature s db user feature now
      = (Except.error ⟨402, "Недостаточно баланса. Пополните кошелёк."⟩, db) := by
  have hmem : u ∈ db.users := List.mem_of_find?_eq_some hu
  have huid : u.id = user.id := by simpa using List.find?_some hu
  have hcount : db.users.countP (fun v => v.id == user.id &&
      product.amount_stars ≤ v.wallet_balance) = 0 := by
    rw [List.countP_eq_zero]
    intro y hy
    by_cases hid : y.id = user.id
    · have : y = u := unique_of_nodup_map db.users (fun x => x.id) hnd hy hmem
        (by show y.id = u.id; rw [hid, huid])
      rw [this]
      simp [not_le.2 hlt]
    · simp [hid]
  simp only [claim_wallet_balance_for_feature, hprod, hcount]
  rw [if_pos (by decide)]

theorem claimWallet_success (s : Settings) (db : DB) (user : User)
    (feature : String) (now : Nat) (product : StarProduct) (u : User)
    (hprod : get_product s feature = Except.ok product)
    (hnd : (db.users.map (fun x => x.id)).Nodup)
    (hu : db.users.find? (fun x => x.id == user.id) = some u)
    (hge : product.amount_stars ≤ u.wallet_balance) :
    claim_wallet_balance_for_feature s db user feature now
      = (Except.ok (walletDebitRow db user feature product.amount_stars now),
         { db with
             users := (applyUpdate db.users
               (fun v => v.id == user.id &&
                 product.amount_stars ≤ v.wallet_balance)
               (fun v => { v with
                 wallet_balance := v.wallet_balance - product.amount_stars,
                 updated_at := now }))
             ledger := db.ledger ++
               [walletDebitRow db user feature product.amount_stars now]
             nextLedgerId := db.nextLedgerId + 1 }) := by
  have hmem : u ∈ db.users := List.mem_of_find?_eq_some hu
  have huid : u.id = user.id := by simpa using List.find?_some hu
  have hcount : db.users.countP (fun v => v.id == user.id &&
      product.amount_stars ≤ v.wallet_balance) = 1 := by
    apply countP_eq_one_of_unique db.users _ (fun x => x.id) hnd hmem
    · simp [huid, hge]
    · intro y _ hy
      simp only [Bool.and_eq_true, beq_iff_eq] at hy
      rw [hy.1, huid]
  simp only [claim_wallet_balance_for_feature, hprod, hcount]
  rw [if_neg (by decide)]
  rfl

/-- C5: for a user whose balance covers the feature's cost, the wallet claim
decrements the balance by exactly the cost and appends exactly one
`premium_debit` row with delta `-cost` in the same step; for a user whose
balance is below the cost it raises `402` and changes nothing. -/
theorem claim_wallet_balance_for_feature_spec (s : Settings) (db : DB)
    (user : User) (feature : String) (now : Nat) (product : StarProduct)
    (u : User) (hprod : get_product s feature = Except.ok product)
    (hnd : (db.users.map (fun x => x.id)).Nodup)
    (hu : db.users.find? (fun x => x.id == user.id) = some u) :
    (product.amount_stars ≤ u.wallet_balance →
      ∃ entry db', claim_wallet_balance_for_feature s db user feature now
          = (Except.ok entry, db') ∧
        entry.kind = .premium_debit ∧
        entry.delta_stars = -product.amount_stars ∧
        entry.feature = some feature ∧
        entry.id = db.nextLedgerId ∧
        db'.ledger = db.ledger ++ [entry] ∧
        db'.payments = db.payments ∧
        { u with wallet_balance := u.wallet_balance - product.amount_stars,
                 updated_at := now } ∈ db'.users ∧
        (∀ v ∈ db.users, v.id ≠ user.id → v ∈ db'.users)) ∧
    (u.wallet_balance < product.amount_stars →
      claim_wallet_balance_for_feature s db user feature now
        = (Except.error ⟨402, "Недостаточно баланса. Пополните кошелёк."⟩, db)) := by
  constructor
  · intro hge
    have hmem : u ∈ db.users := List.mem_of_find?_eq_some hu
    have huid : u.id = user.id := by simpa using List.find?_some hu
    refine ⟨walletDebitRow db user feature product.amount_stars now, _,
      claimWallet_success s db user feature now product u hprod hnd hu hge,
      rfl, rfl, rfl, rfl, rfl, rfl, ?_, ?_⟩
    · have := mem_applyUpdate_of_mem db.users
        (fun v => v.id == user.id && product.amount_stars ≤ v.wallet_balance)
        (fun v => { v with
          wallet_balance := v.wallet_balance - product.amount_stars,
          updated_at := now }) hmem
      rw [if_pos (by simp [huid, hge])] at this
      exact this
    · intro v hv hne
      have := mem_applyUpdate_of_mem db.users
        (fun v => v.id == user.id && product.amount_stars ≤ v.wallet_balance)
        (fun v => { v with
          wallet_balance := v.wallet_balance - product.amount_stars,
          updated_at := now }) hv
      rw [if_neg (by simp [hne])] at this
      exact this
  · exact claimWallet_insufficient s db user feature now product u hprod hnd hu

/-- Witness for C5: scenario D — balance 20 against a feature costing 29
raises `402` and leaves the database unchanged; balance 49 succeeds with a
`-29` debit row. -/
theorem claim_wallet_balance_for_feature_spec_witness :
    let poor : User := { id := 1, tg_user_id := 7, wallet_balance := 20, updated_at := 0 }
    let rich : User := { id := 2, tg_user_id := 8, wallet_balance := 49, updated_at := 0 }
    let db : DB := { users := [poor, rich], payments := [], ledger := [],
                     nextPaymentId := 1, nextLedgerId := 1 }
    (claim_wallet_balance_for_feature {} db poor "tarot_premium" 5
      = (Except.error ⟨402, "Недостаточно баланса. Пополните кошелёк."⟩, db)) ∧
    (∃ entry db', claim_wallet_balance_for_feature {} db rich "tarot_premium" 5
        = (Except.ok entry, db') ∧ entry.delta_stars = -29 ∧
      db'.ledger = db.ledger ++ [entry]) := by
  intro poor rich db
  constructor
  · exact (claim_wallet_balance_for_feature_spec {} db poor "tarot_premium" 5
      ⟨"tarot_premium", 29, "Глубокий расклад Таро",
        "Расклад Таро с детальной интерпретацией Gemini"⟩ poor rfl (by decide)
      (by decide)).2 (by decide)
  · obtain ⟨entry, db', heq, _, hdelta, _, _, hledger, _⟩ :=
      (claim_wallet_balance_for_feature_spec {} db rich "tarot_premium" 5
        ⟨"tarot_premium", 29, "Глубокий расклад Таро",
          "Расклад Таро с детальной интерпретацией Gemini"⟩ rich rfl (by decide)
        (by decide)).1 (by decide)
    exact ⟨entry, db', heq, by rw [hdelta], hledger⟩

/-! ### C6: `claim_premium_access` mode dispatch -/

theorem get_user_payment_ok_id (db : DB) (user : User) (pid : Nat)
    (p : StarPayment) (h : get_user_payment db user pid = Except.ok p) :
    p.id = pid ∧ p.user_id = user.id := by
  unfold get_user_payment at h
  rcases hf : db.payments.find? (fun q => q.id == pid && q.user_id == user.id)
    with _ | q
  · rw [hf] at h; cases h
  · rw [hf] at h; cases h; simpa using List.find?_some hf

theorem claimPaid_ok_shape (db : DB) (user : User) (feature : String)
    (pid now : Nat) (p' : StarPayment) (db' : DB)
    (h : claim_paid_payment_for_feature db user feature (some pid) now
      = (Except.ok p', db')) : p'.id = pid ∧ p'.user_id = user.id := by
  simp only [claim_paid_payment_for_feature] at h
  repeat' split at h
  all_goals simp only [Prod.mk.injEq] at h
  all_goals try exact Except.noConfusion h.1
  obtain ⟨h1, h2⟩ := h
  cases h1
  exact get_user_payment_ok_id _ user pid p' (by assumption)

theorem claimWallet_ok_shape (s : Settings) (db : DB) (user : User)
    (feature : String) (now : Nat) (entry : WalletLedger) (db' : DB)
    (h : claim_wallet_balance_for_feature s db user feature now
      = (Except.ok entry, db')) :
    entry.id = db.nextLedgerId ∧ entry.kind = .premium_debit ∧
    entry.feature = some feature ∧ db'.ledger = db.ledger ++ [entry] ∧
    ∃ product, get_product s feature = Except.ok product ∧
      entry.delta_stars = -product.amount_stars := by
  simp only [claim_wallet_balance_for_feature] at h
  repeat' split at h
  all_goals simp only [Prod.mk.injEq] at h
  all_goals try exact Except.noConfusion h.1
  obtain ⟨h1, h2⟩ := h
  cases h1
  exact ⟨rfl, rfl, rfl, by rw [← h2], _, by assumption, rfl⟩

/-- C6: `claim_premium_access` requires one of the two access modes — with
neither supplied it raises `402` and changes nothing; with a `payment_id` a
successful claim is tagged `source="payment"` and carries that payment id;
with `use_wallet` a successful claim is tagged `source="wallet"` and carries
the id of the newly written `premium_debit` ledger row. -/
theorem claim_premium_access_spec (s : Settings) (db : DB) (user : User)
    (feature : String) (now : Nat) :
    (claim_premium_access s db user feature none false now
      = (Except.error
          ⟨402, "Для премиум-отчёта нужна оплата Stars или баланс кошелька"⟩,
         db)) ∧
    (∀ pid uw c db',
      claim_premium_access s db user feature (some pid) uw now
        = (Except.ok c, db') →
      c.source = "payment" ∧ c.payment_id = some pid ∧
      c.wallet_ledger_id = none) ∧
    (∀ c db',
      claim_premium_access s db user feature none true now
        = (Except.ok c, db') →
      c.source = "wallet" ∧ c.payment_id = none ∧
      ∃ e ∈ db'.ledger, c.wallet_ledger_id = some e.id ∧
        e.kind = .premium_debit ∧ (PK db → e ∉ db.ledger)) := by
  refine ⟨rfl, ?_, ?_⟩
  · intro pid uw c db' h
    simp only [claim_premium_access] at h
    rcases hcp : claim_paid_payment_for_feature db user feature (some pid) now
      with ⟨res, db₂⟩
    rw [hcp] at h
    rcases res with e | payment
    · simp only [Prod.mk.injEq] at h
      exact Except.noConfusion h.1
    · simp only [Prod.mk.injEq] at h
      obtain ⟨h1, h2⟩ := h
      cases h1
      exact ⟨rfl, by
        have := (claimPaid_ok_shape db user feature pid now payment db₂ hcp).1
        simp [this], rfl⟩
  · intro c db' h
    simp only [claim_premium_access, if_true] at h
    rcases hcw : claim_wallet_balance_for_feature s db user feature now
      with ⟨res, db₂⟩
    rw [hcw] at h
    rcases res with e | entry
    · simp only [Prod.mk.injEq] at h
      exact Except.noConfusion h.1
    · simp only [Prod.mk.injEq] at h
      obtain ⟨h1, h2⟩ := h
      cases h1
      cases h2
      obtain ⟨hid, hkind, _, hledger, _⟩ :=
        claimWallet_ok_shape s db user feature now entry _ hcw
      refine ⟨rfl, rfl, entry, ?_, rfl, hkind, ?_⟩
      · rw [hledger]
        exact List.mem_append_right _ (List.mem_singleton.2 rfl)
      · intro hpk hmem
        exact absurd (hid ▸ hpk.2.2.2 entry hmem) (lt_irrefl _)

/-- Witness for C6: scenario A — zero balance, no payment, neither mode
supplied ⇒ `402` and an unchanged database; and the wallet mode on a funded
user returns a `source="wallet"` claim carrying the new debit row's id. -/
theorem claim_premium_access_spec_witness :
    let u0 : User := { id := 2, tg_user_id := 8, wallet_balance := 49, updated_at := 0 }
    let broke : User := { id := 3, tg_user_id := 9, wallet_balance := 0, updated_at := 0 }
    let db0 : DB := { users := [u0, broke], payments := [], ledger := [],
                      nextPaymentId := 1, nextLedgerId := 1 }
    (claim_premium_access {} db0 broke "tarot_premium" none false 5
      = (Except.error
          ⟨402, "Для премиум-отчёта нужна оплата Stars или баланс кошелька"⟩,
         db0)) ∧
    (∃ c db', claim_premium_access {} db0 u0 "tarot_premium" none true 5
        = (Except.ok c, db') ∧ c.source = "wallet" ∧
      ∃ e ∈ db'.ledger, c.wallet_ledger_id = some e.id ∧
        e.kind = .premium_debit) := by
  intro u0 broke db0
  refine ⟨(claim_premium_access_spec {} db0 broke "tarot_premium" 5).1, ?_⟩
  have h : claim_premium_access {} db0 u0 "tarot_premium" none true 5
      = (Except.ok { source := "wallet", payment_id := none,
                     wallet_ledger_id := some 1 },
         { users := [{ id := 2, tg_user_id := 8, wallet_balance := 20,
                       updated_at := 5 }, broke],
           payments := [],
           ledger := [{ id := 1, user_id := 2, tg_user_id := 8,
                        delta_stars := -29, kind := .premium_debit,
                        feature := some "tarot_premium",
                        star_payment_id := none, related_ledger_id := none,
                        task_id := none, created_at := 5 }],
           nextPaymentId := 1, nextLedgerId := 2 }) := rfl
  obtain ⟨hsrc, _, e, hmem, hwid, hkind, _⟩ :=
    (claim_premium_access_spec {} db0 u0 "tarot_premium" 5).2.2 _ _ h
  exact ⟨_, _, h, hsrc, e, hmem, hwid, hkind⟩

/-! ### C2: the payment status transition relation -/

/-- The status transitions a single core operation may perform on one payment
row: stay put, move forward along created→invoiced→paid→consumed (possibly
skipping `invoiced` when the webhook fires before the invoice-link commit),
fail at creation (created→failed), be restored (consumed→paid) — and, the one
deviation from the spec's "failed/cancelled are terminal", be revived to
`paid` by a provider confirmation (`mark_payment_paid_from_telegram` sets
`paid` from any non-`paid`/`consumed` status, `failed`/`cancelled` included). -/
def stepOK (a b : PaymentStatus) : Bool :=
  a == b ||
    match a, b with
    | .created, .invoiced => true
    | .created, .paid => true
    | .created, .failed => true
    | .invoiced, .paid => true
    | .paid, .consumed => true
    | .consumed, .paid => true
    | .failed, .paid => true
    | .cancelled, .paid => true
    | _, _ => false

/-- `stepOK` lifted to optional statuses: a payment may appear (invoice
creation) but never disappears. -/
def stepOKOpt : Option PaymentStatus → Option PaymentStatus → Bool
  | none, _ => true
  | some _, none => false
  | some a, some b => stepOK a b

theorem stepOK_refl (a : PaymentStatus) : stepOK a a = true := by
  cases a <;> rfl

theorem stepOKOpt_refl (x : Option PaymentStatus) : stepOKOpt x x = true := by
  cases x with
  | none => rfl
  | some a => exact stepOK_refl a

theorem statusOf_def (db : DB) (pid : Nat) :
    statusOf db pid
      = (db.payments.find? (fun p => p.id == pid)).map (fun p => p.status) := rfl

theorem stepOKOpt_statusOf_applyUpdate (l : List StarPayment)
    (pred : StarPayment → Bool) (f : StarPayment → StarPayment) (pid : Nat)
    (hid : ∀ x, pred x = true → (f x).id = x.id)
    (hstep : ∀ x ∈ l, pred x = true → stepOK x.status (f x).status = true) :
    stepOKOpt ((l.find? (fun p => p.id == pid)).map (fun p => p.status))
      (((applyUpdate l pred f).find? (fun p => p.id == pid)).map
        (fun p => p.status)) = true := by
  rw [find?_applyUpdate l pred f (fun p => p.id == pid) (by
    intro x
    show ((if pred x then f x else x).id == pid) = (x.id == pid)
    by_cases hx : pred x = true
    · rw [if_pos hx]
      show ((f x).id == pid) = (x.id == pid)
      rw [hid x hx]
    · rw [if_neg hx])]
  rcases hf : l.find? (fun p => p.id == pid) with _ | x
  · rw [hf]
    rfl
  · rw [hf]
    show stepOK x.status (if pred x then f x else x).status = true
    by_cases hx : pred x = true
    · rw [if_pos hx]
      exact hstep x (List.mem_of_find?_eq_some hf) hx
    · rw [if_neg hx]
      exact stepOK_refl _

theorem credit_payments_eq (db : DB) (payment : StarPayment) (now : Nat) :
    (_credit_wallet_for_paid_topup_if_needed db payment now).2.payments
      = db.payments ∧
    (_credit_wallet_for_paid_topup_if_needed db payment now).2.nextPaymentId
      = db.nextPaymentId := by
  simp only [_credit_wallet_for_paid_topup_if_needed]
  repeat' split
  all_goals exact ⟨rfl, rfl⟩

theorem claimWallet_payments_eq (s : Settings) (db : DB) (user : User)
    (feature : String) (now : Nat) :
    (claim_wallet_balance_for_feature s db user feature now).2.payments
      = db.payments ∧
    (claim_wallet_balance_for_feature s db user feature now).2.nextPaymentId
      = db.nextPaymentId := by
  simp only [claim_wallet_balance_for_feature]
  repeat' split
  all_goals exact ⟨rfl, rfl⟩

theorem restoreWallet_payments_eq (db : DB) (user : User) (lid now : Nat) :
    (restore_wallet_spend db user lid now).payments = db.payments ∧
    (restore_wallet_spend db user lid now).nextPaymentId = db.nextPaymentId := by
  simp only [restore_wallet_spend]
  repeat' split
  all_goals exact ⟨rfl, rfl⟩

theorem markPaidUpdate_id (payment : StarPayment) (tc pc : Option String)
    (now : Nat) : (markPaidUpdate payment tc pc now).id = payment.id := by
  unfold markPaidUpdate
  split <;> rfl

theorem markPaidUpdate_status (payment : StarPayment) (tc pc : Option String)
    (now : Nat) :
    (markPaidUpdate payment tc pc now).status
      = (if payment.status ≠ .paid ∧ payment.status ≠ .consumed then .paid
         else payment.status) := by
  unfold markPaidUpdate
  split <;> simp_all

theorem markPaidUpdate_step (payment : StarPayment) (tc pc : Option String)
    (now : Nat) :
    stepOK payment.status (markPaidUpdate payment tc pc now).status = true := by
  rw [markPaidUpdate_status]
  cases h : payment.status <;> simp [stepOK]

theorem sendInvoiceUpdate_step (payment : StarPayment) (now : Nat) :
    stepOK payment.status (sendInvoiceUpdate payment now).status = true := by
  show stepOK payment.status
    (if payment.status = .created then .invoiced else payment.status) = true
  cases h : payment.status <;> simp [stepOK]

theorem get_user_payment_ok_mem (db : DB) (user : User) (pid : Nat)
    (p : StarPayment) (h : get_user_payment db user pid = Except.ok p) :
    p ∈ db.payments := by
  unfold get_user_payment at h
  rcases hf : db.payments.find? (fun q => q.id == pid && q.user_id == user.id)
    with _ | q
  · rw [hf] at h; cases h
  · rw [hf] at h; cases h; exact List.mem_of_find?_eq_some hf

theorem stepOKOpt_statusOf_append_applyUpdate (l : List StarPayment)
    (p0 : StarPayment) (pred : StarPayment → Bool) (f : StarPayment → StarPayment)
    (pid : Nat) (hid : ∀ x, pred x = true → (f x).id = x.id)
    (hstep : ∀ x ∈ l ++ [p0], pred x = true → stepOK x.status (f x).status = true) :
    stepOKOpt ((l.find? (fun p => p.id == pid)).map (fun p => p.status))
      (((applyUpdate (l ++ [p0]) pred f).find? (fun p => p.id == pid)).map
        (fun p => p.status)) = true := by
  have happ := stepOKOpt_statusOf_applyUpdate (l ++ [p0]) pred f pid hid hstep
  rcases hl : l.find? (fun p => p.id == pid) with _ | x
  · rw [hl]
    rfl
  · rw [hl]
    have hx : (l ++ [p0]).find? (fun p => p.id == pid) = some x := by
      rw [List.find?_append, hl]
      rfl
    rw [hx] at happ
    exact happ

theorem mark_tail_step (db : DB) (payment payment2 : StarPayment)
    (now pid : Nat) (hnd : (db.payments.map (fun p => p.id)).Nodup)
    (hmem : payment ∈ db.payments) (hid : payment2.id = payment.id)
    (hstep : stepOK payment.status payment2.status = true) :
    stepOKOpt (statusOf db pid)
      (statusOf (_credit_wallet_for_paid_topup_if_needed
          { db with payments := (applyUpdate db.payments
            (fun p => p.id == payment.id) (fun _ => payment2)) } payment2 now).2
        pid) = true := by
  have hpay := (credit_payments_eq
    { db with payments := (applyUpdate db.payments
      (fun p => p.id == payment.id) (fun _ => payment2)) } payment2 now).1
  rw [statusOf_def, statusOf_def, hpay]
  refine stepOKOpt_statusOf_applyUpdate db.payments _ _ pid ?_ ?_
  · intro x hx
    show payment2.id = x.id
    rw [hid]
    exact (by simpa using hx : x.id = payment.id).symm
  · intro x hxmem hx
    have hxp : x = payment := unique_of_nodup_map db.payments
      (fun q => q.id) hnd hxmem hmem (by simpa using hx)
    rw [hxp]
    exact hstep

set_option maxHeartbeats 2000000 in
/-- One core operation moves every payment's status along `stepOK` (the
amended forward-only relation): this is the per-step transition soundness of
the whole API surface in `Op`. -/
theorem statusOf_applyOp_step (s : Settings) (db : DB) (op : Op) (pid : Nat)
    (hpk : PK db) :
    stepOKOpt (statusOf db pid) (statusOf (applyOp s db op) pid) = true := by
  cases op with
  | createInvoice user feature nonce provider_link now =>
    simp only [applyOp, create_invoice_for_user]
    rcases hgp : get_product s feature with e | product
    · simp only [hgp]
      exact stepOKOpt_refl _
    · simp only [hgp]
      rcases provider_link with e | link
      · rw [statusOf_def, statusOf_def]
        refine stepOKOpt_statusOf_append_applyUpdate db.payments _ _ _ pid ?_ ?_
        · intro x hx
          rfl
        · intro x hxmem hx
          rcases List.mem_append.1 hxmem with hxl | hx0
          · have hlt := hpk.2.1 x hxl
            have : x.id = db.nextPaymentId := by
              simpa [createdPaymentRow] using hx
            omega
          · rw [List.mem_singleton.1 hx0]
            rfl
      · rw [statusOf_def, statusOf_def]
        refine stepOKOpt_statusOf_append_applyUpdate db.payments _ _ _ pid ?_ ?_
        · intro x hx
          rfl
        · intro x hxmem hx
          rcases List.mem_append.1 hxmem with hxl | hx0
          · have hlt := hpk.2.1 x hxl
            have : x.id = db.nextPaymentId := by
              simpa [createdPaymentRow] using hx
            omega
          · rw [List.mem_singleton.1 hx0]
            rfl
  | sendInvoice user payment_id send_result now =>
    simp only [applyOp, send_payment_invoice_to_chat]
    rcases hg : get_user_payment db user payment_id with e | payment
    · simp only [hg]
      exact stepOKOpt_refl _
    · simp only [hg]
      by_cases h1 : payment.status = PaymentStatus.consumed
      · rw [if_pos h1]; exact stepOKOpt_refl _
      · rw [if_neg h1]
        by_cases h2 : payment.status = PaymentStatus.paid
        · rw [if_pos h2]; exact stepOKOpt_refl _
        · rw [if_neg h2]
          by_cases h3 : payment.status = PaymentStatus.failed ∨
            payment.status = PaymentStatus.cancelled
          · rw [if_pos h3]; exact stepOKOpt_refl _
          · rw [if_neg h3]
            rcases hgp : get_product s payment.feature with e | product
            · simp only [hgp]
              exact stepOKOpt_refl _
            · simp only [hgp]
              rcases send_result with e | u
              · exact stepOKOpt_refl _
              · rw [statusOf_def, statusOf_def]
                refine stepOKOpt_statusOf_applyUpdate db.payments _ _ pid ?_ ?_
                · intro x hx
                  show (sendInvoiceUpdate payment now).id = x.id
                  have hxid : x.id = payment.id := by simpa using hx
                  rw [hxid]
                  rfl
                · intro x hxmem hx
                  have hxp : x = payment := unique_of_nodup_map db.payments
                    (fun q => q.id) hpk.1 hxmem
                    (get_user_payment_ok_mem db user payment_id payment hg)
                    (by simpa using hx)
                  rw [hxp]
                  exact sendInvoiceUpdate_step payment now
  | markPaid payload tg cur amt tc pc now =>
    simp only [applyOp]
    unfold mark_payment_paid_from_telegram
    split
    · exact stepOKOpt_refl _
    · rename_i payment hf
      by_cases h1 : (tg.any fun t => payment.tg_user_id ≠ t) = true
      · rw [if_pos h1]; exact stepOKOpt_refl _
      · rw [if_neg h1]
        by_cases h2 : strUpper cur ≠ strUpper payment.currency
        · rw [if_pos h2]; exact stepOKOpt_refl _
        · rw [if_neg h2]
          by_cases h3 : amt ≠ payment.amount_stars
          · rw [if_pos h3]; exact stepOKOpt_refl _
          · rw [if_neg h3]
            by_cases h4 : strTruthy tc = true ∧
              payment.telegram_payment_charge_id ≠ none ∧
              payment.telegram_payment_charge_id ≠ tc
            · rw [if_pos h4]; exact stepOKOpt_refl _
            · rw [if_neg h4]
              exact mark_tail_step db payment (markPaidUpdate payment tc pc now)
                now pid hpk.1 (List.mem_of_find?_eq_some hf)
                (markPaidUpdate_id payment tc pc now)
                (markPaidUpdate_step payment tc pc now)
  | claimPaid user feature payment_id now =>
    simp only [applyOp]
    simp only [claim_paid_payment_for_feature]
    rcases payment_id with _ | pid₀
    · exact stepOKOpt_refl _
    · rcases hg : get_user_payment db user pid₀ with e | payment
      · simp only [hg]
        exact stepOKOpt_refl _
      · simp only [hg]
        by_cases h1 : payment.feature ≠ feature
        · rw [if_pos h1]; exact stepOKOpt_refl _
        · rw [if_neg h1]
          by_cases h2 : payment.status ≠ PaymentStatus.paid
          · rw [if_pos h2]; exact stepOKOpt_refl _
          · rw [if_neg h2]
            have hgoal : stepOKOpt (statusOf db pid)
                (statusOf { db with payments := (applyUpdate db.payments
                  (fun p => p.id == payment.id && p.user_id == user.id &&
                    p.status == PaymentStatus.paid)
                  (fun p => { p with status := .consumed,
                                     consumed_at := some now,
                                     updated_at := now })) } pid) = true := by
              rw [statusOf_def, statusOf_def]
              refine stepOKOpt_statusOf_applyUpdate db.payments _ _ pid ?_ ?_
              · intro x hx
                rfl
              · intro x hxmem hx
                have hxs : x.status = PaymentStatus.paid := by
                  simp only [Bool.and_eq_true, beq_iff_eq] at hx
                  exact hx.2
                rw [hxs]
                rfl
            repeat' split
            all_goals exact hgoal
  | restorePayment user payment_id now =>
    simp only [applyOp, restore_consumed_payment_to_paid]
    rw [statusOf_def, statusOf_def]
    refine stepOKOpt_statusOf_applyUpdate db.payments _ _ pid ?_ ?_
    · intro x hx
      rfl
    · intro x hxmem hx
      have hxs : x.status = PaymentStatus.consumed := by
        simp only [Bool.and_eq_true, beq_iff_eq] at hx
        exact hx.2
      rw [hxs]
      rfl
  | claimWallet user feature now =>
    have h := (claimWallet_payments_eq s db user feature now).1
    show stepOKOpt (statusOf db pid)
      (statusOf (claim_wallet_balance_for_feature s db user feature now).2 pid)
      = true
    rw [statusOf_def, statusOf_def, h]
    exact stepOKOpt_refl _
  | restoreWallet user ledger_id now =>
    have h := (restoreWallet_payments_eq db user ledger_id now).1
    show stepOKOpt (statusOf db pid)
      (statusOf (restore_wallet_spend db user ledger_id now) pid) = true
    rw [statusOf_def, statusOf_def, h]
    exact stepOKOpt_refl _
  | creditTopup payment_id now =>
    simp only [applyOp]
    rcases hf : db.payments.find? (fun p => p.id == payment_id) with _ | p
    · rw [hf]
      exact stepOKOpt_refl _
    · rw [hf]
      have h := (credit_payments_eq db p now).1
      rw [statusOf_def, statusOf_def, h]
      exact stepOKOpt_refl _

/-! ### Primary-key discipline is preserved by every operation -/

theorem nodup_map_append_fresh (l : List α) (x : α) (idf : α → Nat) (bound : Nat)
    (hnd : (l.map idf).Nodup) (hb : ∀ y ∈ l, idf y < bound) (hx : bound ≤ idf x) :
    ((l ++ [x]).map idf).Nodup := by
  rw [List.map_append]
  refine List.Nodup.append hnd (List.nodup_singleton _) ?_
  intro a ha ha2
  obtain ⟨y, hy, rfl⟩ := List.mem_map.1 ha
  have : idf x = idf y := (List.mem_singleton.1 (List.map_singleton _ x ▸ ha2)).symm
  have := hb y hy
  omega

theorem PK_payments_applyUpdate (db : DB) (pred : StarPayment → Bool)
    (f : StarPayment → StarPayment)
    (hidf : ∀ x ∈ db.payments, pred x = true → (f x).id = x.id) (h : PK db) :
    PK { db with payments := applyUpdate db.payments pred f } := by
  obtain ⟨h1, h2, h3, h4⟩ := h
  refine ⟨?_, ?_, h3, h4⟩
  · show ((applyUpdate db.payments pred f).map (fun p => p.id)).Nodup
    rw [map_applyUpdate _ _ _ _ hidf]
    exact h1
  · show ∀ p ∈ applyUpdate db.payments pred f, p.id < db.nextPaymentId
    apply forall_mem_applyUpdate
    intro x hx
    by_cases hp : pred x = true
    · rw [if_pos hp, hidf x hx hp]
      exact h2 x hx
    · rw [if_neg hp]
      exact h2 x hx

theorem PK_ledger_append (db : DB) (users' : List User) (row : WalletLedger)
    (h : PK db) (hrow : row.id = db.nextLedgerId) :
    PK { db with users := users', ledger := db.ledger ++ [row],
                 nextLedgerId := db.nextLedgerId + 1 } := by
  obtain ⟨h1, h2, h3, h4⟩ := h
  refine ⟨h1, h2, ?_, ?_⟩
  · show ((db.ledger ++ [row]).map (fun e => e.id)).Nodup
    exact nodup_map_append_fresh db.ledger row _ db.nextLedgerId h3 h4
      (by rw [hrow])
  · show ∀ e ∈ db.ledger ++ [row], e.id < db.nextLedgerId + 1
    intro e he
    rcases List.mem_append.1 he with he | he
    · have := h4 e he
      omega
    · rw [List.mem_singleton.1 he, hrow]
      omega

theorem PK_payment_append (db : DB) (row : StarPayment) (h : PK db)
    (hrow : row.id = db.nextPaymentId) :
    PK { db with payments := (db.payments ++ [row]),
                 nextPaymentId := db.nextPaymentId + 1 } := by
  obtain ⟨h1, h2, h3, h4⟩ := h
  refine ⟨?_, ?_, h3, h4⟩
  · show ((db.payments ++ [row]).map (fun p => p.id)).Nodup
    exact nodup_map_append_fresh db.payments row _ db.nextPaymentId h1 h2
      (by rw [hrow])
  · show ∀ p ∈ db.payments ++ [row], p.id < db.nextPaymentId + 1
    intro p hp
    rcases List.mem_append.1 hp with hp | hp
    · have := h2 p hp
      omega
    · rw [List.mem_singleton.1 hp, hrow]
      omega

theorem PK_credit (db : DB) (payment : StarPayment) (now : Nat) (h : PK db) :
    PK (_credit_wallet_for_paid_topup_if_needed db payment now).2 := by
  simp only [_credit_wallet_for_paid_topup_if_needed]
  repeat' split
  all_goals first
    | exact h
    | exact PK_ledger_append db _ _ h rfl

theorem PK_applyOp (s : Settings) (db : DB) (op : Op) (h : PK db) :
    PK (applyOp s db op) := by
  cases op with
  | createInvoice user feature nonce provider_link now =>
    simp only [applyOp, create_invoice_for_user]
    rcases hgp : get_product s feature with e | product
    · exact h
    · have hmid := PK_payment_append db
        (createdPaymentRow db user product feature nonce now) h rfl
      rcases provider_link with e | link
      · refine PK_payments_applyUpdate _ _ _ ?_ hmid
        intro x _ _
        rfl
      · refine PK_payments_applyUpdate _ _ _ ?_ hmid
        intro x _ _
        rfl
  | sendInvoice user payment_id send_result now =>
    simp only [applyOp, send_payment_invoice_to_chat]
    repeat' split
    all_goals first
      | exact h
      | (refine PK_payments_applyUpdate _ _ _ ?_ h
         intro x _ hp
         simp only [beq_iff_eq] at hp
         rw [hp]
         rfl)
  | markPaid payload tg cur amt tc pc now =>
    simp only [applyOp]
    unfold mark_payment_paid_from_telegram
    split
    · exact h
    · rename_i payment hf
      repeat' split
      all_goals first
        | exact h
        | exact PK_credit _ _ now (PK_payments_applyUpdate _ _ _
            (fun x _ hp => by
              rw [markPaidUpdate_id]
              exact (by simpa using hp : x.id = payment.id).symm) h)
  | claimPaid user feature payment_id now =>
    simp only [applyOp]
    simp only [claim_paid_payment_for_feature]
    repeat' split
    all_goals first
      | exact h
      | exact PK_payments_applyUpdate _ _ _ (fun x _ _ => rfl) h
  | restorePayment user payment_id now =>
    simp only [applyOp, restore_consumed_payment_to_paid]
    exact PK_payments_applyUpdate _ _ _ (fun x _ _ => rfl) h
  | claimWallet user feature now =>
    simp only [applyOp, claim_wallet_balance_for_feature]
    repeat' split
    all_goals first
      | exact h
      | exact PK_ledger_append db _ _ h rfl
  | restoreWallet user ledger_id now =>
    simp only [applyOp, restore_wallet_spend]
    repeat' split
    all_goals first
      | exact h
      | exact PK_ledger_append db _ _ h rfl
  | creditTopup payment_id now =>
    simp only [applyOp]
    split
    · exact PK_credit db _ now h
    · exact h

/-! ### C2: statuses along any run of core operations -/

/-- The database states visited while running `ops` from `db` left to right. -/
def opsTrace (s : Settings) (db : DB) (ops : List Op) : List DB :=
  ops.scanl (applyOp s) db

/-- C2 (amended): along every sequence of core operations, every payment's
status trace follows `stepOK`: forward along created→invoiced→paid→consumed,
terminating at `failed`/`cancelled` — except that a restore moves
consumed→paid and the provider-confirmation webhook moves any
non-`paid`/`consumed` status (`failed`/`cancelled` included) to `paid`. -/
theorem payment_status_forward_invariant (s : Settings) (db : DB)
    (ops : List Op) (pid : Nat) (hpk : PK db) :
    List.Chain' (fun a b => stepOKOpt a b = true)
      ((opsTrace s db ops).map (fun d => statusOf d pid)) := by
  induction ops generalizing db with
  | nil =>
    simp [opsTrace, List.scanl]
  | cons o t ih =>
    simp only [opsTrace, List.scanl, List.map_cons]
    rw [List.chain'_cons']
    constructor
    · intro hd hh
      have hhead : ((List.scanl (applyOp s) (applyOp s db o) t).map
          (fun d => statusOf d pid)).head? = some (statusOf (applyOp s db o) pid) := by
        rcases t with _ | ⟨o2, t2⟩ <;> rfl
      rw [hhead] at hh
      cases hh
      exact statusOf_applyOp_step s db o pid hpk
    · exact ih (applyOp s db o) (PK_applyOp s db o hpk)

/-- Witness for C2 at a concrete run: create an invoice, confirm it paid,
consume it, and restore it — the status trace respects the transition
relation. -/
theorem payment_status_forward_invariant_witness :
    let u0 : User := { id := 1, tg_user_id := 7, wallet_balance := 0, updated_at := 0 }
    let db0 : DB := { users := [u0], payments := [], ledger := [],
                      nextPaymentId := 1, nextLedgerId := 1 }
    List.Chain' (fun a b => stepOKOpt a b = true)
      ((opsTrace {} db0
        [Op.createInvoice u0 "tarot_premium" "n1" (Except.ok "link") 1,
         Op.markPaid "stars:tarot_premium:7:n1" (some 7) "XTR" 29 (some "c1") none 2,
         Op.claimPaid u0 "tarot_premium" (some 1) 3,
         Op.restorePayment u0 1 4]).map (fun d => statusOf d 1)) := by
  intro u0 db0
  exact payment_status_forward_invariant {} db0 _ 1 (by decide)

/-- Counterexample to C2 as stated: a payment whose invoice-link creation
failed (status `failed`) is revived to `paid` by a later provider
confirmation with matching payload, user, currency and amount — so a
`failed` payment does not stay `failed` forever. -/
theorem failed_payment_revived_by_webhook :
    let u0 : User := { id := 1, tg_user_id := 7, wallet_balance := 0, updated_at := 0 }
    let p0 : StarPayment :=
      { id := 1, user_id := 1, tg_user_id := 7, feature := "natal_premium",
        amount_stars := 49, currency := "XTR", status := .failed,
        invoice_payload := "inv-c2", created_at := 0, updated_at := 0 }
    let db0 : DB := { users := [u0], payments := [p0], ledger := [],
                      nextPaymentId := 2, nextLedgerId := 1 }
    statusOf db0 1 = some .failed ∧
    statusOf (applyOp {} db0 (Op.markPaid "inv-c2" none "XTR" 49 none none 5)) 1
      = some .paid := by
  intro u0 p0 db0
  exact ⟨rfl, by decide⟩


/-! ### C9: the materialized wallet balance never goes negative -/

/-- Schema-level invariant: every payment row carries at least one star
(`_product_catalog` clamps each configurable price by `max(1, ...)` and the
fixed top-ups are 29/49/99, so `create_invoice_for_user` only inserts such
rows). -/
def AmountInv (db : DB) : Prop :=
  ∀ p ∈ db.payments, 1 ≤ p.amount_stars

/-- Every user's materialized `wallet_balance` is non-negative. -/
def BalInv (db : DB) : Prop :=
  ∀ u ∈ db.users, 0 ≤ u.wallet_balance

instance (db : DB) : Decidable (AmountInv db) := by
  unfold AmountInv; infer_instance

instance (db : DB) : Decidable (BalInv db) := by
  unfold BalInv; infer_instance

theorem catalog_amount_pos (s : Settings) :
    ∀ pr ∈ _product_catalog s, 1 ≤ pr.amount_stars := by
  intro pr hpr
  simp only [_product_catalog, List.mem_cons, List.not_mem_nil, or_false] at hpr
  rcases hpr with rfl | rfl | rfl | rfl | rfl | rfl
  · exact le_max_left 1 _
  · exact le_max_left 1 _
  · exact le_max_left 1 _
  · decide
  · decide
  · decide

theorem get_product_ok (s : Settings) (feature : String) (pr : StarProduct)
    (h : get_product s feature = Except.ok pr) :
    pr ∈ _product_catalog s ∧ pr.feature = feature ∧ 1 ≤ pr.amount_stars := by
  unfold get_product at h
  rcases hf : (_product_catalog s).find? (fun p => p.feature == feature)
    with _ | q
  · rw [hf] at h; cases h
  · rw [hf] at h
    have hmem := List.mem_of_find?_eq_some hf
    have hfeat := List.find?_some hf
    cases h
    exact ⟨hmem, by simpa using hfeat, catalog_amount_pos s _ hmem⟩

theorem markPaidUpdate_amount (payment : StarPayment) (tc pc : Option String)
    (now : Nat) :
    (markPaidUpdate payment tc pc now).amount_stars = payment.amount_stars := by
  unfold markPaidUpdate
  split <;> rfl

theorem pred_applyUpdate (l : List α) (pred : α → Bool) (f : α → α)
    (P : α → Prop) (hl : ∀ x ∈ l, P x)
    (hf : ∀ x ∈ l, pred x = true → P (f x)) :
    ∀ y ∈ applyUpdate l pred f, P y := by
  refine forall_mem_applyUpdate l pred f P ?_
  intro x hx
  by_cases hp : pred x = true
  · rw [if_pos hp]; exact hf x hx hp
  · rw [if_neg hp]; exact hl x hx

theorem AmountInv_of_payments_eq (db db' : DB) (h : db'.payments = db.payments)
    (hA : AmountInv db) : AmountInv db' := by
  intro p hp
  rw [h] at hp
  exact hA p hp

theorem BalInv_of_users_eq (db db' : DB) (h : db'.users = db.users)
    (hB : BalInv db) : BalInv db' := by
  intro u hu
  rw [h] at hu
  exact hB u hu

theorem AmountInv_applyOp (s : Settings) (db : DB) (op : Op)
    (hA : AmountInv db) : AmountInv (applyOp s db op) := by
  cases op with
  | createInvoice user feature nonce provider_link now =>
    simp only [applyOp, create_invoice_for_user]
    rcases hgp : get_product s feature with e | product
    · exact hA
    · have hmid : ∀ p ∈ db.payments ++
          [createdPaymentRow db user product feature nonce now],
          1 ≤ p.amount_stars := by
        intro p hp
        rcases List.mem_append.1 hp with hp | hp
        · exact hA p hp
        · rw [List.mem_singleton.1 hp]
          exact (get_product_ok s feature product hgp).2.2
      rcases provider_link with e | link
      · exact pred_applyUpdate _ _ _ _ hmid (fun x hx _ => hmid x hx)
      · exact pred_applyUpdate _ _ _ _ hmid (fun x hx _ => hmid x hx)
  | sendInvoice user payment_id send_result now =>
    simp only [applyOp, send_payment_invoice_to_chat]
    repeat' split
    all_goals first
      | exact hA
      | (rename_i payment hg h1 h2 h3 h4 product hgp uu hsr
         exact pred_applyUpdate _ _ _ _ hA (fun x hx _ =>
           hA payment (get_user_payment_ok_mem db user payment_id payment hg)))
  | markPaid payload tg cur amt tc pc now =>
    simp only [applyOp]
    unfold mark_payment_paid_from_telegram
    split
    · exact hA
    · rename_i payment hf
      repeat' split
      all_goals first
        | exact hA
        | exact AmountInv_of_payments_eq _ _ (credit_payments_eq _ _ _).1
            (pred_applyUpdate _ _ _ _ hA (fun x hx _ => by
              show 1 ≤ (markPaidUpdate payment tc pc now).amount_stars
              rw [markPaidUpdate_amount]
              exact hA payment (List.mem_of_find?_eq_some hf)))
  | claimPaid user feature payment_id now =>
    simp only [applyOp, claim_paid_payment_for_feature]
    repeat' split
    all_goals first
      | exact hA
      | exact pred_applyUpdate _ _ _ _ hA (fun x hx _ => hA x hx)
  | restorePayment user payment_id now =>
    simp only [applyOp, restore_consumed_payment_to_paid]
    exact pred_applyUpdate _ _ _ _ hA (fun x hx _ => hA x hx)
  | claimWallet user feature now =>
    show AmountInv (claim_wallet_balance_for_feature s db user feature now).2
    exact AmountInv_of_payments_eq _ _
      (claimWallet_payments_eq s db user feature now).1 hA
  | restoreWallet user ledger_id now =>
    show AmountInv (restore_wallet_spend db user ledger_id now)
    exact AmountInv_of_payments_eq _ _
      (restoreWallet_payments_eq db user ledger_id now).1 hA
  | creditTopup payment_id now =>
    simp only [applyOp]
    split
    · rename_i p hf
      exact AmountInv_of_payments_eq _ _ (credit_payments_eq db p now).1 hA
    · exact hA

theorem credit_BalInv (db : DB) (payment : StarPayment) (now : Nat)
    (hamt : 1 ≤ payment.amount_stars) (hB : BalInv db) :
    BalInv (_credit_wallet_for_paid_topup_if_needed db payment now).2 := by
  simp only [_credit_wallet_for_paid_topup_if_needed]
  repeat' split
  all_goals first
    | exact hB
    | exact pred_applyUpdate _ _ _ _ hB (fun x hx _ =>
        add_nonneg (hB x hx) (le_trans zero_le_one hamt))

theorem claimWallet_BalInv (s : Settings) (db : DB) (user : User)
    (feature : String) (now : Nat) (hB : BalInv db) :
    BalInv (claim_wallet_balance_for_feature s db user feature now).2 := by
  simp only [claim_wallet_balance_for_feature]
  repeat' split
  all_goals first
    | exact hB
    | exact pred_applyUpdate _ _ _ _ hB (fun x hx hp => by
        simp only [Bool.and_eq_true, decide_eq_true_eq] at hp
        exact sub_nonneg.mpr hp.2)

theorem restoreWallet_BalInv (db : DB) (user : User) (lid now : Nat)
    (hB : BalInv db) : BalInv (restore_wallet_spend db user lid now) := by
  simp only [restore_wallet_spend]
  repeat' split
  all_goals first
    | exact hB
    | exact pred_applyUpdate _ _ _ _ hB (fun x hx _ =>
        add_nonneg (hB x hx) (abs_nonneg _))

theorem BalInv_applyOp (s : Settings) (db : DB) (op : Op)
    (hA : AmountInv db) (hB : BalInv db) : BalInv (applyOp s db op) := by
  cases op with
  | createInvoice user feature nonce provider_link now =>
    simp only [applyOp, create_invoice_for_user]
    rcases hgp : get_product s feature with e | product
    · exact hB
    · rcases provider_link with e | link
      · exact hB
      · exact hB
  | sendInvoice user payment_id send_result now =>
    simp only [applyOp, send_payment_invoice_to_chat]
    repeat' split
    all_goals exact hB
  | markPaid payload tg cur amt tc pc now =>
    simp only [applyOp]
    unfold mark_payment_paid_from_telegram
    split
    · exact hB
    · rename_i payment hf
      repeat' split
      all_goals first
        | exact hB
        | (refine credit_BalInv _ _ now ?_ hB
           rw [markPaidUpdate_amount]
           exact hA payment (List.mem_of_find?_eq_some hf))
  | claimPaid user feature payment_id now =>
    simp only [applyOp, claim_paid_payment_for_feature]
    repeat' split
    all_goals exact hB
  | restorePayment user payment_id now =>
    exact hB
  | claimWallet user feature now =>
    exact claimWallet_BalInv s db user feature now hB
  | restoreWallet user ledger_id now =>
    exact restoreWallet_BalInv db user ledger_id now hB
  | creditTopup payment_id now =>
    simp only [applyOp]
    split
    · rename_i p hf
      exact credit_BalInv db p now (hA p (List.mem_of_find?_eq_some hf)) hB
    · exact hB

/-- C9: starting from non-negative wallet balances (under the schema invariant
that every payment row carries at least one star), any sequence of core
operations keeps every user's materialized `wallet_balance` non-negative — the
debit is guarded by `balance >= cost` and the credits only ever add a payment
amount (≥ 1) or a refunded debit magnitude (≥ 0). -/
theorem wallet_balance_nonneg_invariant (s : Settings) (db : DB) (ops : List Op)
    (hA : AmountInv db) (hB : BalInv db) :
    BalInv (ops.foldl (applyOp s) db) := by
  induction ops generalizing db with
  | nil => exact hB
  | cons op rest ih =>
    exact ih (applyOp s db op) (AmountInv_applyOp s db op hA)
      (BalInv_applyOp s db op hA hB)

def c9User : User :=
  { id := 1, tg_user_id := 10, wallet_balance := 0, updated_at := 0 }

def c9Payment : StarPayment :=
  { id := 1, user_id := 1, tg_user_id := 10, feature := "wallet_topup_29",
    amount_stars := 29, currency := "XTR", status := .paid,
    invoice_payload := "stars:wallet_topup_29:10:n",
    created_at := 0, updated_at := 0, paid_at := some 0 }

def c9DB : DB :=
  { users := [c9User], payments := [c9Payment], ledger := [],
    nextPaymentId := 2, nextLedgerId := 1 }

def c9Ops : List Op :=
  [Op.creditTopup 1 1, Op.claimWallet c9User "tarot_premium" 2,
   Op.restoreWallet c9User 2 3]

theorem wallet_balance_nonneg_invariant_witness :
    AmountInv c9DB ∧ BalInv c9DB ∧
      BalInv (c9Ops.foldl (applyOp ({} : Settings)) c9DB) :=
  ⟨by decide, by decide,
   wallet_balance_nonneg_invariant {} c9DB c9Ops (by decide) (by decide)⟩

/-! ### C10: every wallet-ledger row's delta is determined by its kind -/

/-- The shape of one `wallet_ledger` row, relative to the product catalog and
the payments/ledger tables it references: a `premium_debit` carries minus a
(clamped, hence ≥ 1) catalog cost for its feature; a `topup_credit` carries
the referenced payment's `amount_stars` (≥ 1); a `premium_refund` carries the
absolute value of its referenced debit's delta and only exists for a
nonzero-magnitude debit. -/
def LedgerRowShape (s : Settings) (db : DB) (e : WalletLedger) : Prop :=
  (e.kind = .premium_debit →
    ∃ pr ∈ _product_catalog s, e.feature = some pr.feature ∧
      e.delta_stars = -pr.amount_stars ∧ 1 ≤ pr.amount_stars) ∧
  (e.kind = .topup_credit →
    ∃ p ∈ db.payments, e.star_payment_id = some p.id ∧
      e.delta_stars = p.amount_stars ∧ 1 ≤ e.delta_stars) ∧
  (e.kind = .premium_refund →
    ∃ d ∈ db.ledger, e.related_ledger_id = some d.id ∧
      d.kind = .premium_debit ∧ e.delta_stars = |d.delta_stars| ∧
      1 ≤ e.delta_stars)

/-- The whole-ledger shape invariant. -/
def LedgerInv (s : Settings) (db : DB) : Prop :=
  ∀ e ∈ db.ledger, LedgerRowShape s db e

instance (s : Settings) (db : DB) (e : WalletLedger) :
    Decidable (LedgerRowShape s db e) := by
  unfold LedgerRowShape; infer_instance

instance (s : Settings) (db : DB) : Decidable (LedgerInv s db) := by
  unfold LedgerInv; infer_instance

theorem LedgerRowShape_mono (s : Settings) (db db' : DB) (e : WalletLedger)
    (hpay : ∀ p ∈ db.payments, ∃ p' ∈ db'.payments,
      p'.id = p.id ∧ p'.amount_stars = p.amount_stars)
    (hled : ∀ d ∈ db.ledger, d ∈ db'.ledger)
    (h : LedgerRowShape s db e) : LedgerRowShape s db' e := by
  obtain ⟨h1, h2, h3⟩ := h
  refine ⟨h1, ?_, ?_⟩
  · intro hk
    obtain ⟨p, hp, hid, hdelta, hpos⟩ := h2 hk
    obtain ⟨p', hp', hid', hamt'⟩ := hpay p hp
    refine ⟨p', hp', ?_, ?_, hpos⟩
    · rw [hid, hid']
    · rw [hdelta, hamt']
  · intro hk
    obtain ⟨d, hd, hrel, hkind, hdelta, hpos⟩ := h3 hk
    exact ⟨d, hled d hd, hrel, hkind, hdelta, hpos⟩

theorem persist_applyUpdate (l : List StarPayment) (pred : StarPayment → Bool)
    (f : StarPayment → StarPayment)
    (hf : ∀ x ∈ l, pred x = true →
      (f x).id = x.id ∧ (f x).amount_stars = x.amount_stars) :
    ∀ p ∈ l, ∃ p' ∈ applyUpdate l pred f,
      p'.id = p.id ∧ p'.amount_stars = p.amount_stars := by
  intro p hp
  refine ⟨if pred p then f p else p, mem_applyUpdate_of_mem l pred f hp, ?_⟩
  by_cases hc : pred p = true
  · rw [if_pos hc]
    exact hf p hp hc
  · rw [if_neg hc]
    exact ⟨rfl, rfl⟩

theorem credit_LedgerInv (s : Settings) (db : DB) (payment : StarPayment)
    (now : Nat) (hmem : payment ∈ db.payments) (hamt : 1 ≤ payment.amount_stars)
    (h : LedgerInv s db) :
    LedgerInv s (_credit_wallet_for_paid_topup_if_needed db payment now).2 := by
  simp only [_credit_wallet_for_paid_topup_if_needed]
  repeat' split
  all_goals first
    | exact h
    | (intro e he
       rcases List.mem_append.1 he with he | he0
       · refine LedgerRowShape_mono s db _ e ?_ ?_ (h e he)
         · exact fun p hp => ⟨p, hp, rfl, rfl⟩
         · exact fun d hd => List.mem_append_left _ hd
       · rw [List.mem_singleton.1 he0]
         refine ⟨fun hk => LedgerKind.noConfusion hk, fun _ => ?_,
           fun hk => LedgerKind.noConfusion hk⟩
         exact ⟨payment, hmem, rfl, rfl, hamt⟩)

theorem claimWallet_LedgerInv (s : Settings) (db : DB) (user : User)
    (feature : String) (now : Nat) (h : LedgerInv s db) :
    LedgerInv s (claim_wallet_balance_for_feature s db user feature now).2 := by
  simp only [claim_wallet_balance_for_feature]
  split
  · exact h
  · rename_i product hgp
    split
    · exact h
    · intro e he
      rcases List.mem_append.1 he with he | he0
      · refine LedgerRowShape_mono s db _ e ?_ ?_ (h e he)
        · exact fun p hp => ⟨p, hp, rfl, rfl⟩
        · exact fun d hd => List.mem_append_left _ hd
      · rw [List.mem_singleton.1 he0]
        obtain ⟨hmem, hfeat, hpos⟩ := get_product_ok s feature product hgp
        refine ⟨fun _ => ?_, fun hk => LedgerKind.noConfusion hk,
          fun hk => LedgerKind.noConfusion hk⟩
        refine ⟨product, hmem, ?_, rfl, hpos⟩
        rw [hfeat]

theorem restoreWallet_LedgerInv (s : Settings) (db : DB) (user : User)
    (lid now : Nat) (h : LedgerInv s db) :
    LedgerInv s (restore_wallet_spend db user lid now) := by
  simp only [restore_wallet_spend]
  split
  · exact h
  · rename_i debit hd
    split
    · exact h
    · rename_i hnone
      split
      · exact h
      · rename_i hguard
        intro e he
        rcases List.mem_append.1 he with he | he0
        · refine LedgerRowShape_mono s db _ e ?_ ?_ (h e he)
          · exact fun p hp => ⟨p, hp, rfl, rfl⟩
          · exact fun d hd2 => List.mem_append_left _ hd2
        · rw [List.mem_singleton.1 he0]
          have hdm := List.mem_of_find?_eq_some hd
          have hdp := List.find?_some hd
          have hkind : debit.kind = LedgerKind.premium_debit := by
            simp only [walletDebitPred, Bool.and_eq_true, beq_iff_eq] at hdp
            exact hdp.2
          have hpos : 1 ≤ |debit.delta_stars| := by omega
          refine ⟨fun hk => LedgerKind.noConfusion hk,
            fun hk => LedgerKind.noConfusion hk, fun _ => ?_⟩
          exact ⟨debit, List.mem_append_left _ hdm, rfl, hkind, rfl, hpos⟩

theorem LedgerInv_applyOp (s : Settings) (db : DB) (op : Op)
    (hpk : PK db) (hA : AmountInv db) (h : LedgerInv s db) :
    LedgerInv s (applyOp s db op) := by
  cases op with
  | createInvoice user feature nonce provider_link now =>
    simp only [applyOp, create_invoice_for_user]
    repeat' split
    all_goals first
      | exact h
      | (intro e2 he
         refine LedgerRowShape_mono s db _ e2 ?_ ?_ (h e2 he)
         · intro p hp
           refine persist_applyUpdate _ _ _ ?_ p (List.mem_append_left _ hp)
           exact fun x hx hpx => ⟨rfl, rfl⟩
         · exact fun d hd => hd)
  | sendInvoice user payment_id send_result now =>
    simp only [applyOp, send_payment_invoice_to_chat]
    repeat' split
    all_goals first
      | exact h
      | (rename_i payment hg h1 h2 h3 h4 product hgp uu hsr
         intro e2 he
         refine LedgerRowShape_mono s db _ e2 ?_ ?_ (h e2 he)
         · refine persist_applyUpdate _ _ _ ?_
           intro x hx hpx
           have hxp : x = payment := unique_of_nodup_map db.payments
             (fun q => q.id) hpk.1 hx
             (get_user_payment_ok_mem db user payment_id payment hg)
             (by simpa using hpx)
           rw [hxp]
           exact ⟨rfl, rfl⟩
         · exact fun d hd => hd)
  | markPaid payload tg cur amt tc pc now =>
    simp only [applyOp]
    unfold mark_payment_paid_from_telegram
    split
    · exact h
    · rename_i payment hf
      repeat' split
      all_goals first
        | exact h
        | (have hmem := List.mem_of_find?_eq_some hf
           have h1 : LedgerInv s { db with payments := (applyUpdate db.payments
               (fun p => p.id == payment.id)
               (fun _ => markPaidUpdate payment tc pc now)) } := by
             intro e2 he
             refine LedgerRowShape_mono s db _ e2 ?_ ?_ (h e2 he)
             · refine persist_applyUpdate _ _ _ ?_
               intro x hx hpx
               have hxp : x = payment := unique_of_nodup_map db.payments
                 (fun q => q.id) hpk.1 hx hmem (by simpa using hpx)
               rw [hxp]
               exact ⟨markPaidUpdate_id payment tc pc now,
                 markPaidUpdate_amount payment tc pc now⟩
             · exact fun d hd => hd
           refine credit_LedgerInv s _ _ now ?_ ?_ h1
           · have hmm := mem_applyUpdate_of_mem db.payments
               (fun p => p.id == payment.id)
               (fun _ => markPaidUpdate payment tc pc now) hmem
             rw [if_pos (by simp)] at hmm
             exact hmm
           · rw [markPaidUpdate_amount]
             exact hA payment hmem)
  | claimPaid user feature payment_id now =>
    simp only [applyOp, claim_paid_payment_for_feature]
    repeat' split
    all_goals first
      | exact h
      | (intro e2 he
         refine LedgerRowShape_mono s db _ e2 ?_ ?_ (h e2 he)
         · refine persist_applyUpdate _ _ _ ?_
           exact fun x hx hpx => ⟨rfl, rfl⟩
         · exact fun d hd => hd)
  | restorePayment user payment_id now =>
    simp only [applyOp, restore_consumed_payment_to_paid]
    intro e2 he
    refine LedgerRowShape_mono s db _ e2 ?_ ?_ (h e2 he)
    · refine persist_applyUpdate _ _ _ ?_
      exact fun x hx hpx => ⟨rfl, rfl⟩
    · exact fun d hd => hd
  | claimWallet user feature now =>
    exact claimWallet_LedgerInv s db user feature now h
  | restoreWallet user ledger_id now =>
    exact restoreWallet_LedgerInv s db user ledger_id now h
  | creditTopup payment_id now =>
    simp only [applyOp]
    split
    · rename_i p hf
      exact credit_LedgerInv s db p now (List.mem_of_find?_eq_some hf)
        (hA p (List.mem_of_find?_eq_some hf)) h
    · exact h

/-- C10: along any run of core operations from a database satisfying the
primary-key discipline, the positive-amount schema invariant and the ledger
shape invariant, every wallet-ledger row's `delta_stars` stays determined by
its `kind`: a `premium_debit` carries minus the (clamped to ≥ 1) catalog cost
of its feature, a `topup_credit` carries the referenced payment's
`amount_stars` (≥ 1), and a `premium_refund` carries the absolute value of its
referenced debit's delta and is never written for a zero-magnitude debit. -/
theorem wallet_ledger_delta_shape_invariant (s : Settings) (db : DB)
    (ops : List Op) (hpk : PK db) (hA : AmountInv db) (h : LedgerInv s db) :
    LedgerInv s (ops.foldl (applyOp s) db) := by
  induction ops generalizing db with
  | nil => exact h
  | cons op rest ih =>
    exact ih (applyOp s db op) (PK_applyOp s db op hpk)
      (AmountInv_applyOp s db op hA) (LedgerInv_applyOp s db op hpk hA h)

theorem wallet_ledger_delta_shape_invariant_witness :
    PK c9DB ∧ AmountInv c9DB ∧ LedgerInv ({} : Settings) c9DB ∧
      LedgerInv ({} : Settings) (c9Ops.foldl (applyOp ({} : Settings)) c9DB) :=
  ⟨by decide, by decide, by decide,
   wallet_ledger_delta_shape_invariant {} c9DB c9Ops (by decide) (by decide)
     (by decide)⟩

/-! ### C4: replaying the provider webhook is a no-op -/

theorem markPaidUpdate_fields (p : StarPayment) (tc pc : Option String)
    (n : Nat) :
    (markPaidUpdate p tc pc n).currency = p.currency ∧
    (markPaidUpdate p tc pc n).tg_user_id = p.tg_user_id ∧
    (markPaidUpdate p tc pc n).feature = p.feature ∧
    (markPaidUpdate p tc pc n).invoice_payload = p.invoice_payload := by
  unfold markPaidUpdate
  split <;> exact ⟨rfl, rfl, rfl, rfl⟩

theorem markPaidUpdate_tcid (p : StarPayment) (tc pc : Option String) (n : Nat)
    (h : strTruthy tc = true) :
    (markPaidUpdate p tc pc n).telegram_payment_charge_id = tc := by
  unfold markPaidUpdate
  split <;> simp [h]

theorem markPaidUpdate_paid_or_consumed (p : StarPayment) (tc pc : Option String)
    (n : Nat) :
    (markPaidUpdate p tc pc n).status = PaymentStatus.paid ∨
      (markPaidUpdate p tc pc n).status = PaymentStatus.consumed := by
  rw [markPaidUpdate_status]
  split
  · exact Or.inl rfl
  · rename_i hc
    rcases not_and_or.mp hc with hc | hc
    · exact Or.inl (not_not.mp hc)
    · exact Or.inr (not_not.mp hc)

theorem markPaidUpdate_not_fresh (p : StarPayment) (tc pc : Option String)
    (n : Nat) (h : p.status = PaymentStatus.paid ∨
      p.status = PaymentStatus.consumed) :
    (markPaidUpdate p tc pc n).status = p.status ∧
      (markPaidUpdate p tc pc n).paid_at = p.paid_at := by
  unfold markPaidUpdate
  split
  · rename_i hc
    rcases h with h | h
    · exact absurd h hc.1
    · exact absurd h hc.2
  · exact ⟨rfl, rfl⟩

theorem find?_applyUpdate_found (l : List α) (q pred : α → Bool) (f : α → α)
    (x : α) (hfind : l.find? q = some x) (hpred : pred x = true)
    (hq : q (f x) = true) (hother : ∀ y ∈ l, pred y = true → y = x) :
    (applyUpdate l pred f).find? q = some (f x) := by
  induction l with
  | nil => cases hfind
  | cons a t ih =>
    rw [List.find?_cons] at hfind
    show ((if pred a then f a else a) :: applyUpdate t pred f).find? q
      = some (f x)
    rw [List.find?_cons]
    cases hqa : q a with
    | false =>
      rw [hqa] at hfind
      simp only [Bool.false_eq_true, if_false] at hfind
      have hpa : pred a = false := by
        cases hpa : pred a
        · rfl
        · have hax := hother a (List.mem_cons_self a t) hpa
          have hqx := List.find?_some hfind
          rw [← hax] at hqx
          rw [hqa] at hqx
          exact Bool.noConfusion hqx
      have hifa : (if pred a then f a else a) = a := by
        rw [hpa]
        exact if_neg Bool.false_ne_true
      rw [hifa, hqa]
      simp only [Bool.false_eq_true, if_false]
      exact ih hfind (fun y hy hp => hother y (List.mem_cons_of_mem a hy) hp)
    | true =>
      rw [hqa] at hfind
      simp at hfind
      subst hfind
      rw [if_pos hpred]
      simp [hq]

theorem mark_ok_inv (db : DB) (payload : String) (tg : Option Int)
    (cur : String) (amt : Int) (tc pc : Option String) (now : Nat)
    (p₁ : StarPayment) (db₁ : DB)
    (h : mark_payment_paid_from_telegram db payload tg cur amt tc pc now
      = (Except.ok p₁, db₁)) :
    ∃ payment, db.payments.find? (fun q => q.invoice_payload == payload)
        = some payment ∧
      ¬((tg.any fun t => payment.tg_user_id ≠ t) = true) ∧
      ¬(strUpper cur ≠ strUpper payment.currency) ∧
      ¬(amt ≠ payment.amount_stars) ∧
      ¬(strTruthy tc = true ∧ payment.telegram_payment_charge_id ≠ none ∧
        payment.telegram_payment_charge_id ≠ tc) := by
  unfold mark_payment_paid_from_telegram at h
  rcases hf : db.payments.find? (fun q => q.invoice_payload == payload)
    with _ | payment
  · simp only [hf] at h
    simp at h
  · simp only [hf] at h
    by_cases c1 : (tg.any fun t => payment.tg_user_id ≠ t) = true
    · rw [if_pos c1] at h
      simp at h
    · rw [if_neg c1] at h
      by_cases c2 : strUpper cur ≠ strUpper payment.currency
      · rw [if_pos c2] at h
        simp at h
      · rw [if_neg c2] at h
        by_cases c3 : amt ≠ payment.amount_stars
        · rw [if_pos c3] at h
          simp at h
        · rw [if_neg c3] at h
          by_cases c4 : strTruthy tc = true ∧
            payment.telegram_payment_charge_id ≠ none ∧
            payment.telegram_payment_charge_id ≠ tc
          · rw [if_pos c4] at h
            simp at h
          · exact ⟨payment, hf, c1, c2, c3, c4⟩

theorem mark_eval_ok (db : DB) (payload : String) (tg : Option Int)
    (cur : String) (amt : Int) (tc pc : Option String) (now : Nat)
    (payment : StarPayment)
    (hf : db.payments.find? (fun q => q.invoice_payload == payload)
      = some payment)
    (c1 : ¬((tg.any fun t => payment.tg_user_id ≠ t) = true))
    (c2 : ¬(strUpper cur ≠ strUpper payment.currency))
    (c3 : ¬(amt ≠ payment.amount_stars))
    (c4 : ¬(strTruthy tc = true ∧ payment.telegram_payment_charge_id ≠ none ∧
      payment.telegram_payment_charge_id ≠ tc)) :
    mark_payment_paid_from_telegram db payload tg cur amt tc pc now =
      ((_credit_wallet_for_paid_topup_if_needed
          { db with payments := (applyUpdate db.payments
            (fun p => p.id == payment.id)
            (fun _ => markPaidUpdate payment tc pc now)) }
          (markPaidUpdate payment tc pc now) now).1.map
            (fun _ => markPaidUpdate payment tc pc now),
       (_credit_wallet_for_paid_topup_if_needed
          { db with payments := (applyUpdate db.payments
            (fun p => p.id == payment.id)
            (fun _ => markPaidUpdate payment tc pc now)) }
          (markPaidUpdate payment tc pc now) now).2) := by
  unfold mark_payment_paid_from_telegram
  simp only [hf]
  rw [if_neg c1, if_neg c2, if_neg c3, if_neg c4]

theorem credit_noop_of_ledger (db : DB) (payment : StarPayment) (now : Nat)
    (h : is_wallet_topup_feature payment.feature = false ∨
      ∃ row ∈ db.ledger, (row.star_payment_id == some payment.id) = true) :
    _credit_wallet_for_paid_topup_if_needed db payment now
      = (Except.ok (), db) := by
  unfold _credit_wallet_for_paid_topup_if_needed
  rcases h with h | ⟨row, hrow, hmatch⟩
  · rw [h]
    rfl
  · cases hb : is_wallet_topup_feature payment.feature with
    | false =>
      rfl
    | true =>
      have hsome : (db.ledger.find? (fun l =>
          l.star_payment_id == some payment.id)).isSome := by
        rw [List.find?_isSome]
        exact ⟨row, hrow, hmatch⟩
      obtain ⟨y, hy⟩ := Option.isSome_iff_exists.mp hsome
      rw [hy]
      rfl

theorem credit_ok_topup_row (db : DB) (payment : StarPayment) (now : Nat)
    (ht : is_wallet_topup_feature payment.feature = true)
    (hok : (_credit_wallet_for_paid_topup_if_needed db payment now).1
      = Except.ok ()) :
    ∃ row ∈ (_credit_wallet_for_paid_topup_if_needed db payment now).2.ledger,
      (row.star_payment_id == some payment.id) = true := by
  simp only [_credit_wallet_for_paid_topup_if_needed] at hok ⊢
  rw [ht] at hok ⊢
  rcases hfl : db.ledger.find? (fun l => l.star_payment_id == some payment.id)
    with _ | row
  · rw [hfl] at hok ⊢
    by_cases hcnt : db.users.countP (fun u => u.id == payment.user_id) ≠ 1
    · rw [if_pos hcnt] at hok
      simp at hok
    · rw [if_neg hcnt]
      refine ⟨_, List.mem_append_right _ (List.mem_singleton_self _), ?_⟩
      simp
  · rw [hfl] at hok ⊢
    have hpr : (row.star_payment_id == some payment.id) = true := by
      have h2 := List.find?_some hfl
      simpa using h2
    exact ⟨row, List.mem_of_find?_eq_some hfl, hpr⟩

set_option maxHeartbeats 1000000 in
/-- C4: replaying `mark_payment_paid_from_telegram` with the arguments of an
earlier successful confirmation succeeds again as a pure no-op: the payment
stays `paid` (or `consumed`) with the same status and `paid_at` as after the
first confirmation, and the replay changes neither the users table (no second
wallet credit) nor the ledger (no duplicate `topup_credit` row). -/
theorem mark_payment_paid_replay_idempotent (db : DB) (payload : String)
    (tg : Option Int) (cur : String) (amt : Int) (tc pc : Option String)
    (now₁ now₂ : Nat) (p₁ : StarPayment) (db₁ : DB) (hpk : PK db)
    (h : mark_payment_paid_from_telegram db payload tg cur amt tc pc now₁
      = (Except.ok p₁, db₁)) :
    (p₁.status = PaymentStatus.paid ∨ p₁.status = PaymentStatus.consumed) ∧
    ∃ p₂ db₂,
      mark_payment_paid_from_telegram db₁ payload tg cur amt tc pc now₂
        = (Except.ok p₂, db₂) ∧
      p₂.status = p₁.status ∧ p₂.paid_at = p₁.paid_at ∧
      db₂.users = db₁.users ∧ db₂.ledger = db₁.ledger := by
  obtain ⟨payment, hf, c1, c2, c3, c4⟩ :=
    mark_ok_inv db payload tg cur amt tc pc now₁ p₁ db₁ h
  have heval := mark_eval_ok db payload tg cur amt tc pc now₁ payment
    hf c1 c2 c3 c4
  rw [heval] at h
  have hfst : (_credit_wallet_for_paid_topup_if_needed
      { db with payments := (applyUpdate db.payments
        (fun p => p.id == payment.id)
        (fun _ => markPaidUpdate payment tc pc now₁)) }
      (markPaidUpdate payment tc pc now₁) now₁).1.map
        (fun _ => markPaidUpdate payment tc pc now₁) = Except.ok p₁ :=
    congrArg Prod.fst h
  have hsnd : (_credit_wallet_for_paid_topup_if_needed
      { db with payments := (applyUpdate db.payments
        (fun p => p.id == payment.id)
        (fun _ => markPaidUpdate payment tc pc now₁)) }
      (markPaidUpdate payment tc pc now₁) now₁).2 = db₁ :=
    congrArg Prod.snd h
  rcases hres : (_credit_wallet_for_paid_topup_if_needed
      { db with payments := (applyUpdate db.payments
        (fun p => p.id == payment.id)
        (fun _ => markPaidUpdate payment tc pc now₁)) }
      (markPaidUpdate payment tc pc now₁) now₁).1 with e | u
  · rw [hres] at hfst
    simp only [Except.map] at hfst
    exact Except.noConfusion hfst
  · cases u
    rw [hres] at hfst
    simp only [Except.map, Except.ok.injEq] at hfst
    subst hfst
    have hpays : db₁.payments = applyUpdate db.payments
        (fun p => p.id == payment.id)
        (fun _ => markPaidUpdate payment tc pc now₁) := by
      rw [← hsnd, (credit_payments_eq _ _ _).1]
    have hfind₂ : db₁.payments.find? (fun q => q.invoice_payload == payload)
        = some (markPaidUpdate payment tc pc now₁) := by
      rw [hpays]
      refine find?_applyUpdate_found db.payments _ _ _ payment hf (by simp)
        ?_ ?_
      · show ((markPaidUpdate payment tc pc now₁).invoice_payload == payload)
          = true
        rw [(markPaidUpdate_fields payment tc pc now₁).2.2.2]
        have hpl := List.find?_some hf
        simpa using hpl
      · intro y hy hyp
        exact unique_of_nodup_map db.payments (fun q => q.id) hpk.1 hy
          (List.mem_of_find?_eq_some hf) (by simpa using hyp)
    have c1₂ : ¬((tg.any fun t =>
        (markPaidUpdate payment tc pc now₁).tg_user_id ≠ t) = true) := by
      rw [(markPaidUpdate_fields payment tc pc now₁).2.1]
      exact c1
    have c2₂ : ¬(strUpper cur
        ≠ strUpper (markPaidUpdate payment tc pc now₁).currency) := by
      rw [(markPaidUpdate_fields payment tc pc now₁).1]
      exact c2
    have c3₂ : ¬(amt ≠ (markPaidUpdate payment tc pc now₁).amount_stars) := by
      rw [markPaidUpdate_amount]
      exact c3
    have c4₂ : ¬(strTruthy tc = true ∧
        (markPaidUpdate payment tc pc now₁).telegram_payment_charge_id ≠ none ∧
        (markPaidUpdate payment tc pc now₁).telegram_payment_charge_id ≠ tc)
        := by
      rintro ⟨ht, hne, hneq⟩
      exact hneq (markPaidUpdate_tcid payment tc pc now₁ ht)
    have heval₂ := mark_eval_ok db₁ payload tg cur amt tc pc now₂
      (markPaidUpdate payment tc pc now₁) hfind₂ c1₂ c2₂ c3₂ c4₂
    have hrow : is_wallet_topup_feature
          (markPaidUpdate (markPaidUpdate payment tc pc now₁) tc pc
            now₂).feature = false ∨
        ∃ row ∈ ({ db₁ with payments := (applyUpdate db₁.payments
            (fun p => p.id == (markPaidUpdate payment tc pc now₁).id)
            (fun _ => markPaidUpdate (markPaidUpdate payment tc pc now₁)
              tc pc now₂)) } : DB).ledger,
          (row.star_payment_id ==
            some (markPaidUpdate (markPaidUpdate payment tc pc now₁) tc pc
              now₂).id) = true := by
      cases hb : is_wallet_topup_feature
        (markPaidUpdate payment tc pc now₁).feature with
      | false =>
        left
        rw [(markPaidUpdate_fields (markPaidUpdate payment tc pc now₁)
          tc pc now₂).2.2.1]
        exact hb
      | true =>
        right
        obtain ⟨row, hrowmem, hrowmatch⟩ := credit_ok_topup_row _
          (markPaidUpdate payment tc pc now₁) now₁ hb hres
        refine ⟨row, ?_, ?_⟩
        · show row ∈ db₁.ledger
          rw [← hsnd]
          exact hrowmem
        · rw [markPaidUpdate_id (markPaidUpdate payment tc pc now₁) tc pc now₂]
          exact hrowmatch
    have hnoop := credit_noop_of_ledger
      ({ db₁ with payments := (applyUpdate db₁.payments
        (fun p => p.id == (markPaidUpdate payment tc pc now₁).id)
        (fun _ => markPaidUpdate (markPaidUpdate payment tc pc now₁)
          tc pc now₂)) } : DB)
      (markPaidUpdate (markPaidUpdate payment tc pc now₁) tc pc now₂) now₂ hrow
    refine ⟨markPaidUpdate_paid_or_consumed payment tc pc now₁,
      markPaidUpdate (markPaidUpdate payment tc pc now₁) tc pc now₂,
      { db₁ with payments := (applyUpdate db₁.payments
        (fun p => p.id == (markPaidUpdate payment tc pc now₁).id)
        (fun _ => markPaidUpdate (markPaidUpdate payment tc pc now₁)
          tc pc now₂)) },
      ?_, ?_, ?_, rfl, rfl⟩
    · rw [heval₂, hnoop]
      rfl
    · exact (markPaidUpdate_not_fresh (markPaidUpdate payment tc pc now₁)
        tc pc now₂ (markPaidUpdate_paid_or_consumed payment tc pc now₁)).1
    · exact (markPaidUpdate_not_fresh (markPaidUpdate payment tc pc now₁)
        tc pc now₂ (markPaidUpdate_paid_or_consumed payment tc pc now₁)).2

def c4User : User :=
  { id := 1, tg_user_id := 7, wallet_balance := 0, updated_at := 0 }

def c4Payment : StarPayment :=
  { id := 1, user_id := 1, tg_user_id := 7, feature := "wallet_topup_29",
    amount_stars := 29, currency := "XTR", status := .invoiced,
    invoice_payload := "stars:wallet_topup_29:7:n",
    created_at := 0, updated_at := 0 }

def c4DB : DB :=
  { users := [c4User], payments := [c4Payment], ledger := [],
    nextPaymentId := 2, nextLedgerId := 1 }

/-- The payment row as returned and committed by the first successful webhook
confirmation of `c4Payment` at time 1. -/
def c4Paid : StarPayment :=
  { id := 1, user_id := 1, tg_user_id := 7, feature := "wallet_topup_29",
    amount_stars := 29, currency := "XTR", status := .paid,
    invoice_payload := "stars:wallet_topup_29:7:n",
    telegram_payment_charge_id := some "ch1",
    provider_payment_charge_id := some "pch1",
    created_at := 0, updated_at := 1, paid_at := some 1 }

/-- The database after the first successful webhook confirmation: balance
credited by 29 and one `topup_credit` row referencing the payment. -/
def c4DB1 : DB :=
  { users := [{ id := 1, tg_user_id := 7, wallet_balance := 29,
                updated_at := 1 }],
    payments := [c4Paid],
    ledger := [{ id := 1, user_id := 1, tg_user_id := 7, delta_stars := 29,
                 kind := .topup_credit, feature := some "wallet_topup_29",
                 star_payment_id := some 1, created_at := 1 }],
    nextPaymentId := 2, nextLedgerId := 2 }

theorem mark_payment_paid_replay_idempotent_witness :
    PK c4DB ∧
    mark_payment_paid_from_telegram c4DB "stars:wallet_topup_29:7:n" (some 7)
      "XTR" 29 (some "ch1") (some "pch1") 1 = (Except.ok c4Paid, c4DB1) ∧
    ((mark_payment_paid_from_telegram
        (mark_payment_paid_from_telegram
          (mark_payment_paid_from_telegram c4DB "stars:wallet_topup_29:7:n"
            (some 7) "XTR" 29 (some "ch1") (some "pch1") 1).2
          "stars:wallet_topup_29:7:n" (some 7) "XTR" 29 (some "ch1")
          (some "pch1") 2).2
        "stars:wallet_topup_29:7:n" (some 7) "XTR" 29 (some "ch1")
        (some "pch1") 3).2.users.map (fun u => u.wallet_balance) = [29] ∧
      (mark_payment_paid_from_telegram
        (mark_payment_paid_from_telegram
          (mark_payment_paid_from_telegram c4DB "stars:wallet_topup_29:7:n"
            (some 7) "XTR" 29 (some "ch1") (some "pch1") 1).2
          "stars:wallet_topup_29:7:n" (some 7) "XTR" 29 (some "ch1")
          (some "pch1") 2).2
        "stars:wallet_topup_29:7:n" (some 7) "XTR" 29 (some "ch1")
        (some "pch1") 3).2.ledger.countP
          (fun e => e.star_payment_id == some 1 &&
            e.kind == LedgerKind.topup_credit) = 1) ∧
    ((c4Paid.status = PaymentStatus.paid ∨
        c4Paid.status = PaymentStatus.consumed) ∧
      ∃ p₂ db₂,
        mark_payment_paid_from_telegram c4DB1 "stars:wallet_topup_29:7:n"
          (some 7) "XTR" 29 (some "ch1") (some "pch1") 2
          = (Except.ok p₂, db₂) ∧
        p₂.status = c4Paid.status ∧ p₂.paid_at = c4Paid.paid_at ∧
        db₂.users = c4DB1.users ∧ db₂.ledger = c4DB1.ledger) :=
  ⟨by decide, by rfl, ⟨by decide, by decide⟩,
   mark_payment_paid_replay_idempotent c4DB "stars:wallet_topup_29:7:n"
     (some 7) "XTR" 29 (some "ch1") (some "pch1") 1 2 c4Paid c4DB1
     (by decide) (by rfl)⟩

/-! ### C1: the worker failure path restores the premium claim -/

theorem find?_eq_of_unique (l : List α) (q : α → Bool) (x : α) :
    x ∈ l → q x = true → (∀ y ∈ l, q y = true → y = x) → l.find? q = some x := by
  induction l with
  | nil =>
    intro hx _ _
    cases hx
  | cons a t ih =>
    intro hx hqx huniq
    rw [List.find?_cons]
    rcases List.mem_cons.1 hx with rfl | hxt
    · rw [hqx]
    · cases hqa : q a with
      | true =>
        have hax := huniq a (List.mem_cons_self a t) hqa
        subst hax
        rfl
      | false =>
        exact ih hxt hqx
          (fun y hy hqy => huniq y (List.mem_cons_of_mem a hy) hqy)

theorem restore_by_task_payment (db : DB) (job_id : String) (now : Nat)
    (hpk : PK db) (p : StarPayment)
    (hp : db.payments.find? (fun q => q.consumed_by_task_id == some job_id)
      = some p)
    (hstat : p.status = PaymentStatus.consumed) :
    statusOf (restore_premium_claim_by_task_id db job_id now).2 p.id
      = some PaymentStatus.paid := by
  have hmem := List.mem_of_find?_eq_some hp
  unfold restore_premium_claim_by_task_id
  rw [hp]
  show statusOf (restore_consumed_payment_to_paid db
      { id := p.user_id, tg_user_id := p.tg_user_id, wallet_balance := 0,
        updated_at := 0 } p.id now) p.id = some PaymentStatus.paid
  rw [statusOf_def]
  unfold restore_consumed_payment_to_paid
  have hrw := find?_applyUpdate db.payments
    (fun q => q.id == p.id && q.user_id == p.user_id &&
      q.status == PaymentStatus.consumed)
    (fun q => { q with status := PaymentStatus.paid, consumed_at := none,
                       updated_at := now, consumed_by_task_id := none })
    (fun q => q.id == p.id)
    (fun x => by
      by_cases hx : (x.id == p.id && x.user_id == p.user_id &&
          x.status == PaymentStatus.consumed) = true
      · rw [if_pos hx]
      · rw [if_neg hx])
  rw [hrw, find?_eq_of_unique db.payments (fun q => q.id == p.id) p hmem
    (by simp)
    (fun y hy hqy => unique_of_nodup_map db.payments (fun q => q.id)
      hpk.1 hy hmem (by simpa using hqy))]
  simp only [Option.map_some']
  rw [if_pos (show (p.id == p.id && p.user_id == p.user_id &&
    p.status == PaymentStatus.consumed) = true by simp [hstat])]

theorem restore_by_task_wallet (db : DB) (job_id : String) (now : Nat)
    (hpk : PK db)
    (hp : db.payments.find? (fun q => q.consumed_by_task_id == some job_id)
      = none)
    (d : WalletLedger)
    (hd : db.ledger.find? (fun e => e.task_id == some job_id &&
      e.kind == LedgerKind.premium_debit) = some d)
    (hr : db.ledger.find? (walletRefundPred d.id) = none)
    (hz : ¬(|d.delta_stars| ≤ 0)) :
    walletRefundRow db (⟨d.user_id, d.tg_user_id, 0, 0⟩ : User) d now
      ∈ (restore_premium_claim_by_task_id db job_id now).2.ledger := by
  have hmem := List.mem_of_find?_eq_some hd
  have hkind : d.kind = LedgerKind.premium_debit := by
    have h2 := List.find?_some hd
    simp only [Bool.and_eq_true, beq_iff_eq] at h2
    exact h2.2
  unfold restore_premium_claim_by_task_id
  rw [hp, hd]
  show walletRefundRow db (⟨d.user_id, d.tg_user_id, 0, 0⟩ : User) d now
    ∈ (restore_wallet_spend db (⟨d.user_id, d.tg_user_id, 0, 0⟩ : User)
        d.id now).ledger
  have hdd : db.ledger.find? (walletDebitPred
      (⟨d.user_id, d.tg_user_id, 0, 0⟩ : User) d.id) = some d :=
    find?_eq_of_unique db.ledger _ d hmem
      (by simp [walletDebitPred, hkind])
      (fun y hy hqy => unique_of_nodup_map db.ledger (fun e => e.id)
        hpk.2.2.1 hy hmem (by
          simp only [walletDebitPred, Bool.and_eq_true, beq_iff_eq] at hqy
          exact hqy.1.1))
  rw [restore_wallet_creates_refund db _ d.id now d hdd hr hz]
  exact List.mem_append_right _ (List.mem_singleton_self _)

/-- C1 (spec-modelled: `restore_premium_claim_by_task_id` is invoked by the
worker but its definition is absent from `src/backend/app/star_payments.py`;
it is modelled from spec §4.4).  When the premium worker's content generation
fails irrecoverably — the LLM call raises, or it returns no usable report —
`task_generate_numerology_premium` invokes the restorer on its own job id: the
consumed payment whose `consumed_by_task_id` carries the job id is returned to
`paid`, and when no payment carries it, the unrefunded nonzero premium wallet
debit whose `task_id` carries it gets the matching `premium_refund` row
appended (the claim is restored). -/
theorem worker_failure_restores_claim (db : DB) (job_id : String)
    (outcome : LLMOutcome) (now : Nat) (hpk : PK db)
    (hfail : outcome = LLMOutcome.raised ∨ outcome = LLMOutcome.noReport) :
    (∀ p, db.payments.find? (fun q => q.consumed_by_task_id == some job_id)
        = some p →
      p.status = PaymentStatus.consumed →
      statusOf (task_generate_numerology_premium db job_id outcome now).2 p.id
        = some PaymentStatus.paid) ∧
    (db.payments.find? (fun q => q.consumed_by_task_id == some job_id)
        = none →
      ∀ d, db.ledger.find? (fun e => e.task_id == some job_id &&
          e.kind == LedgerKind.premium_debit) = some d →
        db.ledger.find? (walletRefundPred d.id) = none →
        ¬(|d.delta_stars| ≤ 0) →
        walletRefundRow db (⟨d.user_id, d.tg_user_id, 0, 0⟩ : User) d now
          ∈ (task_generate_numerology_premium db job_id outcome now).2.ledger)
    := by
  have htask : (task_generate_numerology_premium db job_id outcome now).2
      = (restore_premium_claim_by_task_id db job_id now).2 := by
    rcases hfail with rfl | rfl
    · rfl
    · rfl
  rw [htask]
  constructor
  · intro p hp hstat
    exact restore_by_task_payment db job_id now hpk p hp hstat
  · intro hp d hd hr hz
    exact restore_by_task_wallet db job_id now hpk hp d hd hr hz

def c1Payment : StarPayment :=
  { id := 3, user_id := 1, tg_user_id := 9, feature := "numerology_premium",
    amount_stars := 29, currency := "XTR", status := .consumed,
    invoice_payload := "inv-c1", consumed_by_task_id := some "job-1",
    created_at := 0, updated_at := 2, paid_at := some 1, consumed_at := some 2 }

def c1DB : DB :=
  { users := [{ id := 1, tg_user_id := 9, wallet_balance := 0,
                updated_at := 0 }],
    payments := [c1Payment], ledger := [],
    nextPaymentId := 4, nextLedgerId := 1 }

theorem worker_failure_restores_claim_witness :
    PK c1DB ∧
    c1DB.payments.find? (fun q => q.consumed_by_task_id == some "job-1")
      = some c1Payment ∧
    c1Payment.status = PaymentStatus.consumed ∧
    statusOf (task_generate_numerology_premium c1DB "job-1"
      LLMOutcome.raised 5).2 3 = some PaymentStatus.paid :=
  ⟨by decide, by rfl, rfl,
   (worker_failure_restores_claim c1DB "job-1" LLMOutcome.raised 5 (by decide)
     (Or.inl rfl)).1 c1Payment (by rfl) rfl⟩

end Astrobot
